import Mathlib

/-!
FlintPlusPlus: report aggregation and rendering.

A shallow embedding of `flint/ErrorReport.hpp` and `flint/Options.hpp`.

* `std::cout` is modelled by the `String` a `print` call writes;
* the global `Options` is passed to the functions that read it;
* `std::vector` is a `List`, `size_t` values that are only printed are `Nat`;
* `uint` counters are naturals below `2 ^ w`, with `w` the width in bits of
  `unsigned int`; the typedef `uint` and the function `escapeString` come from
  `Polyfill.hpp`, so the width and the escaping function are parameters.
-/

namespace flint

/-! ## Options.hpp -/

/-- The unscoped enumeration `Lint` with the enumerators `ERROR`, `WARNING`, `ADVICE`. -/
inductive Lint where
  | ERROR
  | WARNING
  | ADVICE
  deriving DecidableEq, Repr

/-- The enumerator value of a `Lint` (0, 1, 2), as the integral promotions see it. -/
def Lint.toNat : Lint → Nat
  | .ERROR => 0
  | .WARNING => 1
  | .ADVICE => 2

/-- The `struct OptionsInfo` behind the global `Options`. -/
structure OptionsInfo where
  RECURSIVE : Bool
  CMODE : Bool
  JSON : Bool
  VERBOSE : Bool
  LEVEL : Int
  deriving DecidableEq, Repr

/-! ## ErrorObject -/

/-- The `class ErrorObject`: one finding. -/
structure ErrorObject where
  m_type : Lint
  m_line : Nat
  m_title : String
  m_desc : String
  deriving DecidableEq, Repr

/-- The getter `ErrorObject::getType`, which returns the enumerator as a `uint`. -/
def ErrorObject.getType (e : ErrorObject) : Nat :=
  e.m_type.toNat

/-- The table `typeStr` of `ErrorObject::print`. -/
def typeStr : List String :=
  ["[Error  ] ", "[Warning] ", "[Advice ] ", "Error", "Warning", "Advice"]

/-- The text `ErrorObject::print(path)` writes to `std::cout`. -/
def ErrorObject.print (Options : OptionsInfo) (escapeString : String → String)
    (e : ErrorObject) (path : String) : String :=
  if Options.LEVEL < (e.m_type.toNat : Int) then
    ""
  else if Options.JSON then
    "        \x7b\n" ++
    "\t        \"level\"    : \"" ++ typeStr.getD (e.m_type.toNat + 3) "" ++ "\",\n" ++
    "\t        \"line\"     : " ++ toString e.m_line ++ ",\n" ++
    "\t        \"title\"    : \"" ++ escapeString e.m_title ++ "\",\n" ++
    "\t        \"desc\"     : \"" ++ escapeString e.m_desc ++ "\"\n" ++
    "        \x7d"
  else
    typeStr.getD e.m_type.toNat "" ++ path ++ ":" ++ toString e.m_line ++ ": " ++
      e.m_title ++ "\n"

/-! ## ErrorBase -/

/-- The `class ErrorBase`: the three `uint` counters. -/
structure ErrorBase where
  m_errors : Nat
  m_warnings : Nat
  m_advice : Nat
  deriving DecidableEq, Repr

/-- The constructor `ErrorBase()`. -/
def ErrorBase.ctor : ErrorBase :=
  { m_errors := 0, m_warnings := 0, m_advice := 0 }

/-- The getter `ErrorBase::getErrors`. -/
def ErrorBase.getErrors (b : ErrorBase) : Nat :=
  b.m_errors

/-- The getter `ErrorBase::getWarnings`. -/
def ErrorBase.getWarnings (b : ErrorBase) : Nat :=
  b.m_warnings

/-- The getter `ErrorBase::getAdvice`. -/
def ErrorBase.getAdvice (b : ErrorBase) : Nat :=
  b.m_advice

/-- The getter `ErrorBase::getTotal`: `m_advice + m_warnings + m_errors` in `uint` arithmetic
of width `w`. -/
def ErrorBase.getTotal (w : Nat) (b : ErrorBase) : Nat :=
  ((b.m_advice + b.m_warnings) % 2 ^ w + b.m_errors) % 2 ^ w

/-! ## ErrorFile -/

/-- The `class ErrorFile : public ErrorBase`. -/
structure ErrorFile extends ErrorBase where
  m_objs : List ErrorObject
  m_path : String
  deriving DecidableEq, Repr

/-- The constructor `ErrorFile(path)`. -/
def ErrorFile.ctor (path : String) : ErrorFile :=
  { ErrorBase.ctor with m_objs := [], m_path := path }

/-- The method `ErrorFile::addError`; `++` on a `uint` of width `w` wraps. -/
def ErrorFile.addError (w : Nat) (f : ErrorFile) (error : ErrorObject) : ErrorFile :=
  let f1 : ErrorFile :=
    if error.getType = Lint.ERROR.toNat then
      { f with m_errors := (f.m_errors + 1) % 2 ^ w }
    else if error.getType = Lint.WARNING.toNat then
      { f with m_warnings := (f.m_warnings + 1) % 2 ^ w }
    else f
  let f2 : ErrorFile :=
    if error.getType = Lint.ADVICE.toNat then
      { f1 with m_advice := (f1.m_advice + 1) % 2 ^ w }
    else f1
  { f2 with m_objs := f2.m_objs ++ [error] }

/-- The loop of the structured branch of `ErrorFile::print`, from index `i` on. -/
def ErrorFile.printLoopJSON (Options : OptionsInfo) (escapeString : String → String)
    (path : String) : Nat → List ErrorObject → String
  | _, [] => ""
  | i, e :: es =>
    (if i > 0 then "," ++ "\n" else "") ++ e.print Options escapeString path ++
      ErrorFile.printLoopJSON Options escapeString path (i + 1) es

/-- The loop of the human-readable branch of `ErrorFile::print`. -/
def ErrorFile.printLoop (Options : OptionsInfo) (escapeString : String → String)
    (path : String) : List ErrorObject → String
  | [] => ""
  | e :: es => e.print Options escapeString path ++ ErrorFile.printLoop Options escapeString path es

/-- The text `ErrorFile::print()` writes to `std::cout`. -/
def ErrorFile.print (Options : OptionsInfo) (escapeString : String → String)
    (f : ErrorFile) : String :=
  if Options.JSON then
    "    \x7b\n" ++
    "\t    \"path\"     : \"" ++ escapeString f.m_path ++ "\",\n" ++
    "\t    \"errors\"   : " ++ toString f.getErrors ++ ",\n" ++
    "\t    \"warnings\" : " ++ toString f.getWarnings ++ ",\n" ++
    "\t    \"advice\"   : " ++ toString f.getAdvice ++ ",\n" ++
    "\t    \"reports\"  : [\n" ++
    ErrorFile.printLoopJSON Options escapeString f.m_path 0 f.m_objs ++
    "\n      ]\n" ++
    "    \x7d"
  else
    ErrorFile.printLoop Options escapeString f.m_path f.m_objs

/-! ## ErrorReport -/

/-- The `class ErrorReport : public ErrorBase`. -/
structure ErrorReport extends ErrorBase where
  m_files : List ErrorFile
  deriving DecidableEq, Repr

/-- The implicit default constructor of `ErrorReport`. -/
def ErrorReport.ctor : ErrorReport :=
  { ErrorBase.ctor with m_files := [] }

/-- The method `ErrorReport::addFile`; `+=` on a `uint` of width `w` wraps. -/
def ErrorReport.addFile (w : Nat) (r : ErrorReport) (file : ErrorFile) : ErrorReport :=
  { r with
    m_errors := (r.m_errors + file.getErrors) % 2 ^ w
    m_warnings := (r.m_warnings + file.getWarnings) % 2 ^ w
    m_advice := (r.m_advice + file.getAdvice) % 2 ^ w
    m_files := r.m_files ++ [file] }

/-- The loop of the structured branch of `ErrorReport::print`, from index `i` on. -/
def ErrorReport.printLoopJSON (Options : OptionsInfo) (escapeString : String → String) :
    Nat → List ErrorFile → String
  | _, [] => ""
  | i, f :: fs =>
    (if i > 0 then "," ++ "\n" else "") ++ f.print Options escapeString ++
      ErrorReport.printLoopJSON Options escapeString (i + 1) fs

/-- The loop of the human-readable branch of `ErrorReport::print`. -/
def ErrorReport.printLoop (w : Nat) (Options : OptionsInfo) (escapeString : String → String) :
    List ErrorFile → String
  | [] => ""
  | f :: fs =>
    (if f.getTotal w > 0 then f.print Options escapeString else "") ++
      ErrorReport.printLoop w Options escapeString fs

/-- The text `ErrorReport::print()` writes to `std::cout`. -/
def ErrorReport.print (w : Nat) (Options : OptionsInfo) (escapeString : String → String)
    (r : ErrorReport) : String :=
  if Options.JSON then
    "\x7b\n" ++
    "\t\"errors\"   : " ++ toString r.getErrors ++ ",\n" ++
    "\t\"warnings\" : " ++ toString r.getWarnings ++ ",\n" ++
    "\t\"advice\"   : " ++ toString r.getAdvice ++ ",\n" ++
    "\t\"files\"    : [\n" ++
    ErrorReport.printLoopJSON Options escapeString 0 r.m_files ++
    "\n  ]\n" ++
    "\x7d"
  else
    ErrorReport.printLoop w Options escapeString r.m_files ++
    "\nLint Summary: " ++ toString r.m_files.length ++ " files\n" ++
    "Errors: " ++ toString r.getErrors ++
    (if Options.LEVEL ≥ (Lint.WARNING.toNat : Int) then
      " Warnings: " ++ toString r.getWarnings else "") ++
    (if Options.LEVEL ≥ (Lint.ADVICE.toNat : Int) then
      " Advice: " ++ toString r.getAdvice else "") ++
    "\n"

/-! ## Options.cpp -/

/-- The text `printHelp` prints before it calls `exit(1)`. -/
def usageText : String :=
  "Usage: flint++ [options:] [files:]\n\n" ++
  "\t-r, --recursive\t\t: Search subfolders for files.\n" ++
  "\t-c, --cmode\t\t: Only perform C based lint checks.\n" ++
  "\t-j, --json\t\t: Output report in JSON format.\n" ++
  "\t-l, --level [value:]\t: Set the lint level.\n" ++
  "\t\t\t      0 : Errors only\n" ++
  "\t\t\t      1 : Errors & Warnings\n" ++
  "\t\t\t      2 : All feedback\n\n" ++
  "\t-h, --help\t\t: Print usage.\n\n"

/-- The `bool` variables the `Arg` objects of `parseArgs` point to: the local `HELP` and
three fields of `Options`. -/
inductive BoolVar where
  | HELP
  | RECURSIVE
  | CMODE
  | JSON
  deriving DecidableEq, Repr

/-- The `struct Arg` of `parseArgs`: its `ArgType` with the variable `ptr` points to. The
only `INT` argument points to `Options.LEVEL`. -/
inductive Arg where
  | BOOL (ptr : BoolVar)
  | INT
  deriving DecidableEq, Repr

/-- The `Arg` object `argHelp`. -/
def argHelp : Arg := Arg.BOOL BoolVar.HELP

/-- The `Arg` object `argRecursive`. -/
def argRecursive : Arg := Arg.BOOL BoolVar.RECURSIVE

/-- The `Arg` object `argCMode`. -/
def argCMode : Arg := Arg.BOOL BoolVar.CMODE

/-- The `Arg` object `argJSON`. -/
def argJSON : Arg := Arg.BOOL BoolVar.JSON

/-- The `Arg` object `argLevel`. -/
def argLevel : Arg := Arg.INT

/-- The map `params` from the command line flags to their `Arg`. -/
def params : List (String × Arg) :=
  [("-h", argHelp), ("--help", argHelp),
   ("-r", argRecursive), ("--recursive", argRecursive),
   ("-c", argCMode), ("--cmode", argCMode),
   ("-j", argJSON), ("--json", argJSON),
   ("-l", argLevel), ("--level", argLevel)]

/-- The lookup `params.find(string(argv[i]))`; `none` stands for `params.end()`. -/
def paramsFind (s : String) : Option Arg :=
  params.lookup s

/-- The variables `parseArgs` writes while it loops: the global `Options`, the local `HELP`
and the vector `paths`. -/
structure ParseState where
  Options : OptionsInfo
  HELP : Bool
  paths : List String
  deriving DecidableEq, Repr

/-- The assignment `*arg = true` through the `bool*` of a `BOOL` argument. -/
def ParseState.setBool (st : ParseState) : BoolVar → ParseState
  | .HELP => { st with HELP := true }
  | .RECURSIVE => { st with Options := { st.Options with RECURSIVE := true } }
  | .CMODE => { st with Options := { st.Options with CMODE := true } }
  | .JSON => { st with Options := { st.Options with JSON := true } }

/-- How the loop of `parseArgs` ends: `printHelp` has printed and called `exit(1)` (with all
the text printed), `p.back()` was called on an empty string (undefined behaviour), or the
loop has run to its end. -/
inductive LoopResult where
  | exited (out : String)
  | undefinedBack
  | done (st : ParseState)
  deriving DecidableEq, Repr

/-- The loop `for (int i = 1; i < argc; ++i)` of `parseArgs` over the arguments not yet
read. The C library function `atoi` is a parameter. -/
def parseLoop (atoi : String → Int) : List String → ParseState → LoopResult
  | [], st => LoopResult.done st
  | a :: rest, st =>
    match paramsFind a with
    | some (Arg.BOOL ptr) => parseLoop atoi rest (st.setBool ptr)
    | some Arg.INT =>
      match rest with
      | [] =>
        LoopResult.exited ("Missing (int) value for parameter: " ++ a ++ "\n\n" ++ usageText)
      | v :: rest' =>
        parseLoop atoi rest' { st with Options := { st.Options with LEVEL := atoi v } }
    | none =>
      match a.data.getLast? with
      | none => LoopResult.undefinedBack
      | some c =>
        parseLoop atoi rest
          { st with paths := st.paths ++
              [if c = '/' ∨ c = '\\' then String.mk a.data.dropLast else a] }

/-- How a call of `parseArgs` ends: `printHelp` has printed and called `exit(1)`, the
behaviour is undefined (`p.back()` on an empty string), or the call returns with the global
`Options` and the vector `paths` as given. -/
inductive ParseResult where
  | exited (out : String)
  | undefinedBack
  | returned (Options : OptionsInfo) (paths : List String)
  deriving DecidableEq, Repr

/-- The function `parseArgs(argc, argv, paths)`: `argv` is the list of the `argc` arguments,
`Options` the global before the call and `paths` the vector as the caller passes it. -/
def parseArgs (atoi : String → Int) (Options : OptionsInfo) (argv : List String)
    (paths : List String) : ParseResult :=
  match parseLoop atoi argv.tail
      { Options := { Options with
          RECURSIVE := false, CMODE := false, JSON := false,
          LEVEL := (Lint.ADVICE.toNat : Int) },
        HELP := false, paths := paths } with
  | LoopResult.exited out => ParseResult.exited out
  | LoopResult.undefinedBack => ParseResult.undefinedBack
  | LoopResult.done st =>
    if st.HELP = true ∨ argv.length = 1 ∨ st.paths.length = 0 then
      ParseResult.exited usageText
    else
      ParseResult.returned
        { st.Options with
          LEVEL :=
            if st.Options.LEVEL > (Lint.ADVICE.toNat : Int) then (Lint.ADVICE.toNat : Int)
            else if st.Options.LEVEL < (Lint.ERROR.toNat : Int) then (Lint.ERROR.toNat : Int)
            else st.Options.LEVEL }
        st.paths

/-! ## Ignored.hpp: the ignored regions, of which only the declaration is in the sources -/

/-- Modelled from the spec: the pause marker comment of the MarkerScanner; `Ignored.cpp`,
which defines the markers, is not among the sources, the text is the one the comment in
`Ignored.hpp` quotes. -/
def pauseMarker : List Char := "// %flint: pause".data

/-- Modelled from the spec: the resume marker comment of the MarkerScanner; `Ignored.cpp` is
not among the sources, the text is the one the comment in `Ignored.hpp` quotes. -/
def resumeMarker : List Char := "// %flint: resume".data

/-- Modelled from the spec: the line boundaries of a text, absent with `Ignored.cpp`: the
first line of the text (up to its first newline, the newline left out) and the lines after
it. -/
def splitFirst : List Char → List Char × List (List Char)
  | [] => ([], [])
  | c :: cs =>
    if c = '\n' then ([], (splitFirst cs).1 :: (splitFirst cs).2)
    else (c :: (splitFirst cs).1, (splitFirst cs).2)

/-- Modelled from the spec: the lines of a text, absent with `Ignored.cpp`; a text always has
a first line. -/
def splitLines (cs : List Char) : List (List Char) :=
  (splitFirst cs).1 :: (splitFirst cs).2

/-- Modelled from the spec: the text of a list of lines, absent with `Ignored.cpp`: the
lines with a newline before each line but the first. -/
def joinLines : List (List Char) → List Char
  | [] => []
  | l :: ls => l ++ (ls.map (fun x => '\n' :: x)).flatten

/-- Modelled from the spec: the content of a line after trimming the surrounding white
space, as the MarkerScanner of `Ignored.cpp` (absent) compares it with the markers. -/
def trimLine (l : List Char) : List Char :=
  ((l.dropWhile Char.isWhitespace).reverse.dropWhile Char.isWhitespace).reverse

/-- Modelled from the spec: a suppressed line of `Ignored.cpp` (absent), every character
replaced by a blank. -/
def blankLine (l : List Char) : List Char :=
  l.map (fun _ => ' ')

/-- Modelled from the spec: the scan of the RegionSuppressor of `Ignored.cpp` (absent) over
the lines, with its flag `suppressing`. A pause marker line is blanked and sets the flag (no
change when it is set already); a resume marker line while suppressing is blanked and clears
the flag; a resume marker line while not suppressing is left as it is; any other line is
blanked while suppressing and left untouched otherwise. -/
def suppressLines : Bool → List (List Char) → List (List Char)
  | _, [] => []
  | suppressing, l :: ls =>
    if trimLine l = pauseMarker then blankLine l :: suppressLines true ls
    else if trimLine l = resumeMarker then
      (if suppressing then blankLine l else l) :: suppressLines false ls
    else if suppressing then blankLine l :: suppressLines true ls
    else l :: suppressLines false ls

/-- Modelled from the spec: the function `removeIgnoredCode(file, path)` declared in
`Ignored.hpp`, whose definition (`Ignored.cpp`) is not among the sources: the RegionSuppressor
of the spec, which blanks the lines between a pause and a resume marker and keeps every
newline. The spec gives no role to `path`. -/
def removeIgnoredCode (file : String) (_path : String) : String :=
  String.mk (joinLines (suppressLines false (splitLines file.data)))

/-! ## Notions used to state the properties -/

/-- Number of findings of severity `t` in a sequence of findings. -/
def countType (t : Lint) (es : List ErrorObject) : Nat :=
  es.countP (fun e => decide (e.m_type = t))

/-- The file obtained from a freshly constructed `ErrorFile(path)` by calling `addError` on
each finding of `es` in turn. -/
def ErrorFile.addErrors (w : Nat) (path : String) (es : List ErrorObject) : ErrorFile :=
  es.foldl (ErrorFile.addError w) (ErrorFile.ctor path)

/-- The report obtained from a fresh `ErrorReport` by calling `addFile` on each file of `fs`
in turn. -/
def ErrorReport.addFiles (w : Nat) (fs : List ErrorFile) : ErrorReport :=
  fs.foldl (ErrorReport.addFile w) ErrorReport.ctor

/-- Total number of findings held by the files of `fs`. -/
def totalFindings (fs : List ErrorFile) : Nat :=
  (fs.map (fun f => f.m_objs.length)).sum

/-- Whether a finding is at or below the threshold `t` in the order
Error < Warning < Advice. -/
def shownAt (t : Lint) (e : ErrorObject) : Bool :=
  decide (e.m_type.toNat ≤ t.toNat)

/-- Concatenation of a list of strings, in order. -/
def concatStrings : List String → String
  | [] => ""
  | s :: ss => s ++ concatStrings ss

/-- The strings of a list joined with `sep` between each two consecutive ones, and nowhere
else. -/
def joinWith (sep : String) : List String → String
  | [] => ""
  | [s] => s
  | s :: t :: ss => s ++ sep ++ joinWith sep (t :: ss)

/-- The level label of the human-readable format. -/
def levelLabel : Lint → String
  | .ERROR => "[Error  ] "
  | .WARNING => "[Warning] "
  | .ADVICE => "[Advice ] "

/-- The level name of the structured format. -/
def levelName : Lint → String
  | .ERROR => "Error"
  | .WARNING => "Warning"
  | .ADVICE => "Advice"

/-- The human-readable line of a finding, `[<Level>] <path>:<line>: <title>` and a newline. -/
def findingLine (path : String) (e : ErrorObject) : String :=
  levelLabel e.m_type ++ path ++ ":" ++ toString e.m_line ++ ": " ++ e.m_title ++ "\n"

/-- The structured object of a finding: level name, line, title and description. -/
def findingObject (escapeString : String → String) (e : ErrorObject) : String :=
  "        \x7b\n" ++
  "\t        \"level\"    : \"" ++ levelName e.m_type ++ "\",\n" ++
  "\t        \"line\"     : " ++ toString e.m_line ++ ",\n" ++
  "\t        \"title\"    : \"" ++ escapeString e.m_title ++ "\",\n" ++
  "\t        \"desc\"     : \"" ++ escapeString e.m_desc ++ "\"\n" ++
  "        \x7d"

/-- What the structured loop of `ErrorFile::print` writes into the reports array: a
separator comma (with its line end) or the object of a finding. -/
inductive Piece where
  | sep
  | obj (e : ErrorObject)
  deriving DecidableEq, Repr

/-- The text of a piece. -/
def Piece.text (escapeString : String → String) : Piece → String
  | .sep => "," ++ "\n"
  | .obj e => findingObject escapeString e

/-- The findings whose objects occur among the pieces, in order. -/
def Piece.objects : List Piece → List ErrorObject
  | [] => []
  | .sep :: ps => Piece.objects ps
  | .obj e :: ps => e :: Piece.objects ps

/-- The pieces the structured loop of `ErrorFile::print` writes from index `i` on: the
separator when `i > 0`, then the object of the finding unless `ErrorObject::print` returns
before writing it. -/
def ErrorFile.loopPieces (Options : OptionsInfo) : Nat → List ErrorObject → List Piece
  | _, [] => []
  | i, e :: es =>
    (if i > 0 then [Piece.sep] else []) ++
      (if Options.LEVEL < (e.m_type.toNat : Int) then [] else [Piece.obj e]) ++
      ErrorFile.loopPieces Options (i + 1) es

/-- Every separator stands between two written objects: the pieces are empty, or objects
alternating with separators that start and end with an object. -/
def wellSeparated : List Piece → Bool
  | [] => true
  | [.obj _] => true
  | .obj _ :: .sep :: .obj e :: ps => wellSeparated (.obj e :: ps)
  | _ => false

/-- The lines of a text: the runs of characters ended by a newline, the newline left out,
and the run after the last newline when it is not empty. -/
def linesOf : List Char → List (List Char)
  | [] => []
  | c :: cs =>
    if c = '\n' then [] :: linesOf cs
    else
      match linesOf cs with
      | [] => [[c]]
      | l :: ls => (c :: l) :: ls

/-- The lines of an output. -/
def lines (s : String) : List String :=
  (linesOf s.data).map String.mk

/-- The counter of an `ErrorBase` that matches the severity `t`. -/
def counterOf (t : Lint) (b : ErrorBase) : Nat :=
  match t with
  | .ERROR => b.getErrors
  | .WARNING => b.getWarnings
  | .ADVICE => b.getAdvice

/-- The C library predicate `isspace` in the "C" locale. -/
def isspace (c : Char) : Bool :=
  c = ' ' || (9 ≤ c.toNat && c.toNat ≤ 13)

/-- The value of the leading decimal digits of a text. -/
def digitsValue (cs : List Char) : Int :=
  (cs.takeWhile Char.isDigit).foldl (fun n c => 10 * n + ((c.toNat : Int) - 48)) 0

/-- The C library function `atoi`, used where a concrete `atoi` is needed: white space is
skipped, a sign is read, then the decimal digits; the result is 0 when no digit follows.
The model gives the value itself also where it does not fit an `int`, a case the C standard
leaves undefined. -/
def cAtoi (s : String) : Int :=
  match s.data.dropWhile isspace with
  | '-' :: ds => - digitsValue ds
  | '+' :: ds => digitsValue ds
  | ds => digitsValue ds

/-- How `parseArgs` reads an argument: as a flag, as the value of the level flag read just
before it, or as a path. -/
inductive Role where
  | flag (a : Arg)
  | levelValue
  | path
  deriving DecidableEq, Repr

/-- The arguments after `argv[0]`, each with the way it is read, from left to right: an
argument that is one of the flag strings is read as a flag unless it is the value of a level
flag; the argument after a level flag is the value of that flag, whatever its text. -/
def argRoles : List String → List (String × Role)
  | [] => []
  | a :: rest =>
    match paramsFind a with
    | some (Arg.BOOL ptr) => (a, Role.flag (Arg.BOOL ptr)) :: argRoles rest
    | some Arg.INT =>
      match rest with
      | [] => [(a, Role.flag Arg.INT)]
      | v :: rest' => (a, Role.flag Arg.INT) :: (v, Role.levelValue) :: argRoles rest'
    | none => (a, Role.path) :: argRoles rest

/-- The arguments read as paths, in command line order. -/
def pathArgs (args : List String) : List String :=
  ((argRoles args).filter (fun x => decide (x.2 = Role.path))).map Prod.fst

/-- The arguments read as values of a level flag, in command line order. -/
def levelValues (args : List String) : List String :=
  ((argRoles args).filter (fun x => decide (x.2 = Role.levelValue))).map Prod.fst

/-- Whether some argument is read as a flag that sets the variable `b`. -/
def readsFlag (b : BoolVar) (args : List String) : Bool :=
  (argRoles args).any (fun x => decide (x.2 = Role.flag (Arg.BOOL b)))

/-- Whether the last argument is read as a level flag, which then has no value. -/
def levelWithoutValue (args : List String) : Bool :=
  match (argRoles args).getLast? with
  | some (_, Role.flag Arg.INT) => true
  | _ => false

/-- A path argument with a single trailing `/` or `\` removed if there is one. -/
def stripTrailing (p : String) : String :=
  match p.data.getLast? with
  | some c => if c = '/' ∨ c = '\\' then String.mk p.data.dropLast else p
  | none => p

/-- An integer clamped to the nearest of 0 (Error) and 2 (Advice). -/
def clampLevel (n : Int) : Int :=
  if n > 2 then 2 else if n < 0 then 0 else n

/-- The level `parseArgs` is asked for: Advice when no level value is read, else the
integer `atoi` gives for the last level value read, clamped. -/
def requestedLevel (atoi : String → Int) (args : List String) : Int :=
  match (levelValues args).getLast? with
  | none => 2
  | some v => clampLevel (atoi v)

/-- The paths by the text of the arguments alone: the arguments that are not one of the ten
flag strings and do not stand immediately after the string `-l` or `--level`, each with a
trailing separator removed; `afterLevel` tells whether the argument before was `-l` or
`--level`. -/
def literalPathArgs (afterLevel : Bool) : List String → List String
  | [] => []
  | a :: rest =>
    (if (paramsFind a).isNone ∧ afterLevel = false then [stripTrailing a] else []) ++
      literalPathArgs (decide (a = "-l" ∨ a = "--level")) rest

/-- The variables of `parseArgs` after its loop has read all of `args` from the state `st`:
a flag variable is set when it was set before or its flag is read, the level is what `atoi`
gives for the last level value read, the paths read are appended. -/
def loopOutcome (atoi : String → Int) (args : List String) (st : ParseState) : ParseState :=
  { Options :=
      { RECURSIVE := st.Options.RECURSIVE || readsFlag BoolVar.RECURSIVE args,
        CMODE := st.Options.CMODE || readsFlag BoolVar.CMODE args,
        JSON := st.Options.JSON || readsFlag BoolVar.JSON args,
        VERBOSE := st.Options.VERBOSE,
        LEVEL :=
          match (levelValues args).getLast? with
          | none => st.Options.LEVEL
          | some v => atoi v },
    HELP := st.HELP || readsFlag BoolVar.HELP args,
    paths := st.paths ++ (pathArgs args).map stripTrailing }

/-! ## Counters of a file -/

theorem ErrorFile.addError_m_objs (w : Nat) (f : ErrorFile) (e : ErrorObject) :
    (f.addError w e).m_objs = f.m_objs ++ [e] := by
  unfold ErrorFile.addError
  dsimp only
  split_ifs <;> rfl

theorem ErrorFile.addError_m_path (w : Nat) (f : ErrorFile) (e : ErrorObject) :
    (f.addError w e).m_path = f.m_path := by
  unfold ErrorFile.addError
  dsimp only
  split_ifs <;> rfl

theorem ErrorFile.addError_m_errors (w : Nat) (f : ErrorFile) (e : ErrorObject) :
    (f.addError w e).m_errors =
      if e.m_type = Lint.ERROR then (f.m_errors + 1) % 2 ^ w else f.m_errors := by
  cases e with
  | mk ty ln ti de => cases ty <;> simp [ErrorFile.addError, ErrorObject.getType, Lint.toNat]

theorem ErrorFile.addError_m_warnings (w : Nat) (f : ErrorFile) (e : ErrorObject) :
    (f.addError w e).m_warnings =
      if e.m_type = Lint.WARNING then (f.m_warnings + 1) % 2 ^ w else f.m_warnings := by
  cases e with
  | mk ty ln ti de => cases ty <;> simp [ErrorFile.addError, ErrorObject.getType, Lint.toNat]

theorem ErrorFile.addError_m_advice (w : Nat) (f : ErrorFile) (e : ErrorObject) :
    (f.addError w e).m_advice =
      if e.m_type = Lint.ADVICE then (f.m_advice + 1) % 2 ^ w else f.m_advice := by
  cases e with
  | mk ty ln ti de => cases ty <;> simp [ErrorFile.addError, ErrorObject.getType, Lint.toNat]

theorem ErrorFile.addErrors_nil (w : Nat) (path : String) :
    ErrorFile.addErrors w path [] = ErrorFile.ctor path := rfl

theorem ErrorFile.addErrors_snoc (w : Nat) (path : String) (es : List ErrorObject)
    (e : ErrorObject) :
    ErrorFile.addErrors w path (es ++ [e]) = (ErrorFile.addErrors w path es).addError w e := by
  simp [ErrorFile.addErrors, List.foldl_append]

theorem countType_snoc (t : Lint) (es : List ErrorObject) (e : ErrorObject) :
    countType t (es ++ [e]) = countType t es + if e.m_type = t then 1 else 0 := by
  simp [countType, List.countP_append, List.countP_cons]

theorem countType_total (es : List ErrorObject) :
    countType Lint.ERROR es + countType Lint.WARNING es + countType Lint.ADVICE es
      = es.length := by
  induction es with
  | nil => rfl
  | cons e es ih =>
    cases e with
    | mk ty ln ti de =>
      cases ty <;> simp [countType, List.countP_cons] at ih ⊢ <;> omega

theorem ErrorFile.addErrors_m_objs (w : Nat) (path : String) (es : List ErrorObject) :
    (ErrorFile.addErrors w path es).m_objs = es := by
  induction es using List.reverseRecOn with
  | nil => rfl
  | append_singleton es e ih => rw [ErrorFile.addErrors_snoc, ErrorFile.addError_m_objs, ih]

theorem ErrorFile.addErrors_m_path (w : Nat) (path : String) (es : List ErrorObject) :
    (ErrorFile.addErrors w path es).m_path = path := by
  induction es using List.reverseRecOn with
  | nil => rfl
  | append_singleton es e ih => rw [ErrorFile.addErrors_snoc, ErrorFile.addError_m_path, ih]

theorem ErrorFile.addErrors_m_errors (w : Nat) (path : String) (es : List ErrorObject) :
    (ErrorFile.addErrors w path es).m_errors = countType Lint.ERROR es % 2 ^ w := by
  induction es using List.reverseRecOn with
  | nil => simp [ErrorFile.addErrors_nil, ErrorFile.ctor, ErrorBase.ctor, countType]
  | append_singleton es e ih =>
    rw [ErrorFile.addErrors_snoc, ErrorFile.addError_m_errors, ih, countType_snoc]
    split_ifs <;> simp [Nat.add_mod]

theorem ErrorFile.addErrors_m_warnings (w : Nat) (path : String) (es : List ErrorObject) :
    (ErrorFile.addErrors w path es).m_warnings = countType Lint.WARNING es % 2 ^ w := by
  induction es using List.reverseRecOn with
  | nil => simp [ErrorFile.addErrors_nil, ErrorFile.ctor, ErrorBase.ctor, countType]
  | append_singleton es e ih =>
    rw [ErrorFile.addErrors_snoc, ErrorFile.addError_m_warnings, ih, countType_snoc]
    split_ifs <;> simp [Nat.add_mod]

theorem ErrorFile.addErrors_m_advice (w : Nat) (path : String) (es : List ErrorObject) :
    (ErrorFile.addErrors w path es).m_advice = countType Lint.ADVICE es % 2 ^ w := by
  induction es using List.reverseRecOn with
  | nil => simp [ErrorFile.addErrors_nil, ErrorFile.ctor, ErrorBase.ctor, countType]
  | append_singleton es e ih =>
    rw [ErrorFile.addErrors_snoc, ErrorFile.addError_m_advice, ih, countType_snoc]
    split_ifs <;> simp [Nat.add_mod]

theorem ErrorFile.addErrors_getTotal (w : Nat) (path : String) (es : List ErrorObject) :
    (ErrorFile.addErrors w path es).getTotal w = es.length % 2 ^ w := by
  unfold ErrorBase.getTotal
  rw [ErrorFile.addErrors_m_errors, ErrorFile.addErrors_m_warnings,
    ErrorFile.addErrors_m_advice, ← countType_total es,
    ← Nat.add_mod (countType Lint.ADVICE es) (countType Lint.WARNING es), ← Nat.add_mod]
  congr 1
  omega

theorem countType_le_length (t : Lint) (es : List ErrorObject) :
    countType t es ≤ es.length :=
  List.countP_le_length _

theorem countType_replicate_self (n : Nat) (e : ErrorObject) :
    countType e.m_type (List.replicate n e) = n := by
  unfold countType
  rw [List.countP_replicate]
  simp

/-- C1 (as amended): for every sequence `es` of findings added with `ErrorFile::addError` to a
freshly constructed `ErrorFile`, with fewer than `2 ^ w` findings added (`w` the width of the
`uint` counters), `getErrors()`, `getWarnings()` and `getAdvice()` are the numbers of added
findings of severity Error, Warning and Advice, and `getTotal()` is the number of findings
added. `addError` and the getters never read `Options`, so no threshold enters. -/
theorem C1_counters_below_wrap (w : Nat) (path : String) (es : List ErrorObject)
    (h : es.length < 2 ^ w) :
    (ErrorFile.addErrors w path es).getErrors = countType Lint.ERROR es ∧
    (ErrorFile.addErrors w path es).getWarnings = countType Lint.WARNING es ∧
    (ErrorFile.addErrors w path es).getAdvice = countType Lint.ADVICE es ∧
    (ErrorFile.addErrors w path es).getTotal w = es.length := by
  refine ⟨?_, ?_, ?_, ?_⟩
  · rw [ErrorBase.getErrors, ErrorFile.addErrors_m_errors]
    exact Nat.mod_eq_of_lt (lt_of_le_of_lt (countType_le_length _ es) h)
  · rw [ErrorBase.getWarnings, ErrorFile.addErrors_m_warnings]
    exact Nat.mod_eq_of_lt (lt_of_le_of_lt (countType_le_length _ es) h)
  · rw [ErrorBase.getAdvice, ErrorFile.addErrors_m_advice]
    exact Nat.mod_eq_of_lt (lt_of_le_of_lt (countType_le_length _ es) h)
  · rw [ErrorFile.addErrors_getTotal]
    exact Nat.mod_eq_of_lt h

/-- C1 at a concrete input: two Errors, one Warning and one Advice added to a fresh file,
with 32-bit counters. -/
theorem C1_counters_below_wrap_witness :
    (ErrorFile.addErrors 32 "path"
        [⟨Lint.ERROR, 3, "a", "b"⟩, ⟨Lint.WARNING, 4, "c", "d"⟩,
         ⟨Lint.ADVICE, 9, "e", "f"⟩, ⟨Lint.ERROR, 1, "g", "h"⟩]).getErrors = 2 ∧
    (ErrorFile.addErrors 32 "path"
        [⟨Lint.ERROR, 3, "a", "b"⟩, ⟨Lint.WARNING, 4, "c", "d"⟩,
         ⟨Lint.ADVICE, 9, "e", "f"⟩, ⟨Lint.ERROR, 1, "g", "h"⟩]).getWarnings = 1 ∧
    (ErrorFile.addErrors 32 "path"
        [⟨Lint.ERROR, 3, "a", "b"⟩, ⟨Lint.WARNING, 4, "c", "d"⟩,
         ⟨Lint.ADVICE, 9, "e", "f"⟩, ⟨Lint.ERROR, 1, "g", "h"⟩]).getAdvice = 1 ∧
    (ErrorFile.addErrors 32 "path"
        [⟨Lint.ERROR, 3, "a", "b"⟩, ⟨Lint.WARNING, 4, "c", "d"⟩,
         ⟨Lint.ADVICE, 9, "e", "f"⟩, ⟨Lint.ERROR, 1, "g", "h"⟩]).getTotal 32 = 4 :=
  C1_counters_below_wrap 32 "path"
    [⟨Lint.ERROR, 3, "a", "b"⟩, ⟨Lint.WARNING, 4, "c", "d"⟩,
     ⟨Lint.ADVICE, 9, "e", "f"⟩, ⟨Lint.ERROR, 1, "g", "h"⟩] (by decide)

/-- C1 as stated fails once the 32-bit counter wraps: after `2 ^ 32` Error findings are added
to a fresh file, `getErrors()` and `getTotal()` are 0 although `2 ^ 32` findings, all of
severity Error, were added. -/
theorem C1_counterexample :
    (ErrorFile.addErrors 32 "path"
        (List.replicate 4294967296 ⟨Lint.ERROR, 1, "t", "d"⟩)).getErrors = 0 ∧
    (ErrorFile.addErrors 32 "path"
        (List.replicate 4294967296 ⟨Lint.ERROR, 1, "t", "d"⟩)).getTotal 32 = 0 ∧
    countType Lint.ERROR (List.replicate 4294967296 ⟨Lint.ERROR, 1, "t", "d"⟩) = 4294967296 ∧
    (List.replicate 4294967296 (⟨Lint.ERROR, 1, "t", "d"⟩ : ErrorObject)).length
      = 4294967296 := by
  have hc : countType Lint.ERROR (List.replicate 4294967296 ⟨Lint.ERROR, 1, "t", "d"⟩)
      = 4294967296 :=
    countType_replicate_self 4294967296 ⟨Lint.ERROR, 1, "t", "d"⟩
  refine ⟨?_, ?_, hc, List.length_replicate _ _⟩
  · rw [ErrorBase.getErrors, ErrorFile.addErrors_m_errors, hc]
    norm_num
  · rw [ErrorFile.addErrors_getTotal, List.length_replicate]
    norm_num

/-! ## Counters of a report -/

theorem ErrorReport.addFiles_snoc (w : Nat) (fs : List ErrorFile) (f : ErrorFile) :
    ErrorReport.addFiles w (fs ++ [f]) = (ErrorReport.addFiles w fs).addFile w f := by
  simp [ErrorReport.addFiles, List.foldl_append]

theorem ErrorReport.addFiles_m_files (w : Nat) (fs : List ErrorFile) :
    (ErrorReport.addFiles w fs).m_files = fs := by
  induction fs using List.reverseRecOn with
  | nil => rfl
  | append_singleton fs f ih => rw [ErrorReport.addFiles_snoc]; simp [ErrorReport.addFile, ih]

theorem ErrorReport.addFiles_m_errors (w : Nat) (fs : List ErrorFile) :
    (ErrorReport.addFiles w fs).m_errors = (fs.map (fun f => f.getErrors)).sum % 2 ^ w := by
  induction fs using List.reverseRecOn with
  | nil => simp [ErrorReport.addFiles, ErrorReport.ctor, ErrorBase.ctor]
  | append_singleton fs f ih =>
    rw [ErrorReport.addFiles_snoc]
    simp [ErrorReport.addFile, ih, Nat.add_mod]

theorem ErrorReport.addFiles_m_warnings (w : Nat) (fs : List ErrorFile) :
    (ErrorReport.addFiles w fs).m_warnings = (fs.map (fun f => f.getWarnings)).sum % 2 ^ w := by
  induction fs using List.reverseRecOn with
  | nil => simp [ErrorReport.addFiles, ErrorReport.ctor, ErrorBase.ctor]
  | append_singleton fs f ih =>
    rw [ErrorReport.addFiles_snoc]
    simp [ErrorReport.addFile, ih, Nat.add_mod]

theorem ErrorReport.addFiles_m_advice (w : Nat) (fs : List ErrorFile) :
    (ErrorReport.addFiles w fs).m_advice = (fs.map (fun f => f.getAdvice)).sum % 2 ^ w := by
  induction fs using List.reverseRecOn with
  | nil => simp [ErrorReport.addFiles, ErrorReport.ctor, ErrorBase.ctor]
  | append_singleton fs f ih =>
    rw [ErrorReport.addFiles_snoc]
    simp [ErrorReport.addFile, ih, Nat.add_mod]

theorem totalFindings_cons (f : ErrorFile) (fs : List ErrorFile) :
    totalFindings (f :: fs) = f.m_objs.length + totalFindings fs := by
  simp [totalFindings]

/-- The counters of files built by `addError`, summed over the files, add up to the number of
findings the files hold, as long as that number is below `2 ^ w`. -/
theorem sum_counters_of_built (w : Nat) (fs : List ErrorFile)
    (hbuilt : ∀ f ∈ fs, ∃ path es, f = ErrorFile.addErrors w path es)
    (hlt : totalFindings fs < 2 ^ w) :
    (fs.map (fun f => f.getErrors)).sum + (fs.map (fun f => f.getWarnings)).sum
      + (fs.map (fun f => f.getAdvice)).sum = totalFindings fs := by
  induction fs with
  | nil => rfl
  | cons f fs ih =>
    rw [totalFindings_cons] at hlt ⊢
    obtain ⟨path, es, rfl⟩ := hbuilt _ (List.mem_cons_self _ _)
    have ih1 := ih (fun g hg => hbuilt g (List.mem_cons_of_mem _ hg)) (by omega)
    rw [ErrorFile.addErrors_m_objs] at hlt ⊢
    have hes : es.length < 2 ^ w := by omega
    have h1 : (ErrorFile.addErrors w path es).getErrors = countType Lint.ERROR es := by
      rw [ErrorBase.getErrors, ErrorFile.addErrors_m_errors]
      exact Nat.mod_eq_of_lt (lt_of_le_of_lt (countType_le_length _ es) hes)
    have h2 : (ErrorFile.addErrors w path es).getWarnings = countType Lint.WARNING es := by
      rw [ErrorBase.getWarnings, ErrorFile.addErrors_m_warnings]
      exact Nat.mod_eq_of_lt (lt_of_le_of_lt (countType_le_length _ es) hes)
    have h3 : (ErrorFile.addErrors w path es).getAdvice = countType Lint.ADVICE es := by
      rw [ErrorBase.getAdvice, ErrorFile.addErrors_m_advice]
      exact Nat.mod_eq_of_lt (lt_of_le_of_lt (countType_le_length _ es) hes)
    have h4 := countType_total es
    simp only [List.map_cons, List.sum_cons, h1, h2, h3]
    omega

/-- C2 (as amended): for every sequence `fs` of files built by `addError` and added with
`ErrorReport::addFile` to a fresh `ErrorReport`, when the files hold fewer than `2 ^ w`
findings in all (`w` the width of the `uint` counters), each of the run's three counters is
the sum of that counter over the added files, and the run's `getTotal()` is the number of
findings held by the added files. -/
theorem C2_report_counters_below_wrap (w : Nat) (fs : List ErrorFile)
    (hbuilt : ∀ f ∈ fs, ∃ path es, f = ErrorFile.addErrors w path es)
    (hlt : totalFindings fs < 2 ^ w) :
    (ErrorReport.addFiles w fs).getErrors = (fs.map (fun f => f.getErrors)).sum ∧
    (ErrorReport.addFiles w fs).getWarnings = (fs.map (fun f => f.getWarnings)).sum ∧
    (ErrorReport.addFiles w fs).getAdvice = (fs.map (fun f => f.getAdvice)).sum ∧
    (ErrorReport.addFiles w fs).getTotal w = totalFindings fs := by
  have hsum := sum_counters_of_built w fs hbuilt hlt
  have he : (ErrorReport.addFiles w fs).m_errors = (fs.map (fun f => f.getErrors)).sum := by
    rw [ErrorReport.addFiles_m_errors]
    exact Nat.mod_eq_of_lt (by omega)
  have hw : (ErrorReport.addFiles w fs).m_warnings
      = (fs.map (fun f => f.getWarnings)).sum := by
    rw [ErrorReport.addFiles_m_warnings]
    exact Nat.mod_eq_of_lt (by omega)
  have ha : (ErrorReport.addFiles w fs).m_advice = (fs.map (fun f => f.getAdvice)).sum := by
    rw [ErrorReport.addFiles_m_advice]
    exact Nat.mod_eq_of_lt (by omega)
  refine ⟨he, hw, ha, ?_⟩
  unfold ErrorBase.getTotal
  rw [he, hw, ha]
  have h1 : ((fs.map (fun f => f.getAdvice)).sum + (fs.map (fun f => f.getWarnings)).sum)
      % 2 ^ w = (fs.map (fun f => f.getAdvice)).sum + (fs.map (fun f => f.getWarnings)).sum :=
    Nat.mod_eq_of_lt (by omega)
  rw [h1, Nat.mod_eq_of_lt (a := _ + _ + _) (by omega)]
  omega

/-- C2 at a concrete input: a file with two Errors and one Advice and a file with one
Warning, added to a fresh report, with 32-bit counters. -/
theorem C2_report_counters_below_wrap_witness :
    (ErrorReport.addFiles 32
      [ErrorFile.addErrors 32 "a.cpp"
        [⟨Lint.ERROR, 1, "a", "b"⟩, ⟨Lint.ERROR, 2, "c", "d"⟩, ⟨Lint.ADVICE, 3, "e", "f"⟩],
       ErrorFile.addErrors 32 "b.cpp" [⟨Lint.WARNING, 7, "g", "h"⟩]]).getErrors = 2 ∧
    (ErrorReport.addFiles 32
      [ErrorFile.addErrors 32 "a.cpp"
        [⟨Lint.ERROR, 1, "a", "b"⟩, ⟨Lint.ERROR, 2, "c", "d"⟩, ⟨Lint.ADVICE, 3, "e", "f"⟩],
       ErrorFile.addErrors 32 "b.cpp" [⟨Lint.WARNING, 7, "g", "h"⟩]]).getWarnings = 1 ∧
    (ErrorReport.addFiles 32
      [ErrorFile.addErrors 32 "a.cpp"
        [⟨Lint.ERROR, 1, "a", "b"⟩, ⟨Lint.ERROR, 2, "c", "d"⟩, ⟨Lint.ADVICE, 3, "e", "f"⟩],
       ErrorFile.addErrors 32 "b.cpp" [⟨Lint.WARNING, 7, "g", "h"⟩]]).getAdvice = 1 ∧
    (ErrorReport.addFiles 32
      [ErrorFile.addErrors 32 "a.cpp"
        [⟨Lint.ERROR, 1, "a", "b"⟩, ⟨Lint.ERROR, 2, "c", "d"⟩, ⟨Lint.ADVICE, 3, "e", "f"⟩],
       ErrorFile.addErrors 32 "b.cpp" [⟨Lint.WARNING, 7, "g", "h"⟩]]).getTotal 32 = 4 :=
  C2_report_counters_below_wrap 32
    [ErrorFile.addErrors 32 "a.cpp"
      [⟨Lint.ERROR, 1, "a", "b"⟩, ⟨Lint.ERROR, 2, "c", "d"⟩, ⟨Lint.ADVICE, 3, "e", "f"⟩],
     ErrorFile.addErrors 32 "b.cpp" [⟨Lint.WARNING, 7, "g", "h"⟩]]
    (by
      intro f hf
      simp only [List.mem_cons, List.mem_singleton, List.not_mem_nil, or_false] at hf
      rcases hf with rfl | rfl
      · exact ⟨_, _, rfl⟩
      · exact ⟨_, _, rfl⟩)
    (by decide)

/-- The run counter after two files, each built from `n` copies of one Error finding. -/
theorem addFiles_pair_replicate (w n : Nat) (path : String) (e : ErrorObject)
    (he : e.m_type = Lint.ERROR) :
    (ErrorFile.addErrors w path (List.replicate n e)).getErrors = n % 2 ^ w ∧
    (ErrorReport.addFiles w
      [ErrorFile.addErrors w path (List.replicate n e),
       ErrorFile.addErrors w path (List.replicate n e)]).getErrors
      = (n % 2 ^ w + n % 2 ^ w) % 2 ^ w := by
  have hc : (ErrorFile.addErrors w path (List.replicate n e)).getErrors = n % 2 ^ w := by
    rw [ErrorBase.getErrors, ErrorFile.addErrors_m_errors, ← he, countType_replicate_self]
  refine ⟨hc, ?_⟩
  rw [ErrorBase.getErrors, ErrorReport.addFiles_m_errors]
  simp only [List.map_cons, List.map_nil, List.sum_cons, List.sum_nil, hc, Nat.add_zero]

/-- C2 as stated fails once the 32-bit run counter wraps: two files with `2 ^ 31` Error
findings each have `getErrors() = 2 ^ 31`, and the report they are added to has
`getErrors() = 0`, not `2 ^ 32`. -/
theorem C2_counterexample :
    (ErrorFile.addErrors 32 "a.cpp"
      (List.replicate 2147483648 ⟨Lint.ERROR, 1, "t", "d"⟩)).getErrors = 2147483648 ∧
    (ErrorReport.addFiles 32
      [ErrorFile.addErrors 32 "a.cpp" (List.replicate 2147483648 ⟨Lint.ERROR, 1, "t", "d"⟩),
       ErrorFile.addErrors 32 "a.cpp" (List.replicate 2147483648 ⟨Lint.ERROR, 1, "t", "d"⟩)]
      ).getErrors = 0 := by
  obtain ⟨h1, h2⟩ := addFiles_pair_replicate 32 2147483648 "a.cpp" ⟨Lint.ERROR, 1, "t", "d"⟩ rfl
  refine ⟨?_, ?_⟩
  · rw [h1]; norm_num
  · rw [h2]; norm_num

/-! ## Rendering of a finding and of a file -/

theorem concatStrings_append (xs ys : List String) :
    concatStrings (xs ++ ys) = concatStrings xs ++ concatStrings ys := by
  induction xs with
  | nil => simp [concatStrings]
  | cons x xs ih => simp [concatStrings, ih, String.append_assoc]

theorem ErrorObject.print_hidden (Options : OptionsInfo) (escapeString : String → String)
    (e : ErrorObject) (path : String) (h : Options.LEVEL < (e.m_type.toNat : Int)) :
    e.print Options escapeString path = "" := by
  simp [ErrorObject.print, h]

theorem ErrorObject.print_structured (Options : OptionsInfo) (escapeString : String → String)
    (e : ErrorObject) (path : String) (h : ¬ Options.LEVEL < (e.m_type.toNat : Int))
    (hj : Options.JSON = true) :
    e.print Options escapeString path = findingObject escapeString e := by
  cases e with
  | mk ty ln ti de =>
    cases ty <;> simp_all [ErrorObject.print, findingObject, levelName, typeStr, Lint.toNat]

theorem ErrorObject.print_readable (Options : OptionsInfo) (escapeString : String → String)
    (e : ErrorObject) (path : String) (h : ¬ Options.LEVEL < (e.m_type.toNat : Int))
    (hj : Options.JSON = false) :
    e.print Options escapeString path = findingLine path e := by
  cases e with
  | mk ty ln ti de =>
    cases ty <;> simp_all [ErrorObject.print, findingLine, levelLabel, typeStr, Lint.toNat]

theorem hidden_of_not_shownAt (Options : OptionsInfo) (t : Lint) (e : ErrorObject)
    (ht : Options.LEVEL = (t.toNat : Int)) (hs : shownAt t e = false) :
    Options.LEVEL < (e.m_type.toNat : Int) := by
  rw [ht]
  simp [shownAt] at hs
  exact_mod_cast hs

theorem not_hidden_of_shownAt (Options : OptionsInfo) (t : Lint) (e : ErrorObject)
    (ht : Options.LEVEL = (t.toNat : Int)) (hs : shownAt t e = true) :
    ¬ Options.LEVEL < (e.m_type.toNat : Int) := by
  rw [ht]
  simp [shownAt] at hs
  exact_mod_cast Nat.not_lt.mpr hs

theorem ErrorFile.printLoopJSON_eq_pieces (Options : OptionsInfo)
    (escapeString : String → String) (path : String) (hj : Options.JSON = true)
    (es : List ErrorObject) (i : Nat) :
    ErrorFile.printLoopJSON Options escapeString path i es
      = concatStrings ((ErrorFile.loopPieces Options i es).map (Piece.text escapeString)) := by
  induction es generalizing i with
  | nil => rfl
  | cons e es ih =>
    rw [ErrorFile.printLoopJSON, ErrorFile.loopPieces, List.map_append, List.map_append,
      concatStrings_append, concatStrings_append, ih]
    congr 1
    congr 1
    · by_cases hi : i > 0 <;> simp [hi, concatStrings, Piece.text]
    · by_cases hl : Options.LEVEL < (e.m_type.toNat : Int)
      · simp [hl, concatStrings, ErrorObject.print_hidden]
      · simp [hl, concatStrings, Piece.text,
          ErrorObject.print_structured Options escapeString e path hl hj]

theorem Piece.objects_append (ps qs : List Piece) :
    Piece.objects (ps ++ qs) = Piece.objects ps ++ Piece.objects qs := by
  induction ps with
  | nil => rfl
  | cons p ps ih => cases p <;> simp [Piece.objects, ih]

theorem ErrorFile.loopPieces_objects (Options : OptionsInfo) (t : Lint)
    (ht : Options.LEVEL = (t.toNat : Int)) (es : List ErrorObject) (i : Nat) :
    Piece.objects (ErrorFile.loopPieces Options i es) = es.filter (shownAt t) := by
  induction es generalizing i with
  | nil => rfl
  | cons e es ih =>
    rw [ErrorFile.loopPieces, Piece.objects_append, Piece.objects_append, ih]
    have h1 : Piece.objects (if i > 0 then [Piece.sep] else []) = [] := by
      by_cases hi : i > 0 <;> simp [hi, Piece.objects]
    rw [h1]
    cases hs : shownAt t e
    · simp [hidden_of_not_shownAt Options t e ht hs, Piece.objects, List.filter_cons, hs]
    · simp [not_hidden_of_shownAt Options t e ht hs, Piece.objects, List.filter_cons, hs]

theorem ErrorFile.printLoop_eq_lines (Options : OptionsInfo) (escapeString : String → String)
    (path : String) (t : Lint) (hj : Options.JSON = false)
    (ht : Options.LEVEL = (t.toNat : Int)) (es : List ErrorObject) :
    ErrorFile.printLoop Options escapeString path es
      = concatStrings ((es.filter (shownAt t)).map (findingLine path)) := by
  induction es with
  | nil => rfl
  | cons e es ih =>
    rw [ErrorFile.printLoop, ih]
    cases hs : shownAt t e
    · have hl := hidden_of_not_shownAt Options t e ht hs
      simp [hs, List.filter_cons, ErrorObject.print_hidden _ _ _ _ hl]
    · have hl := not_hidden_of_shownAt Options t e ht hs
      simp [hs, List.filter_cons, concatStrings,
        ErrorObject.print_readable Options escapeString e path hl hj]

theorem ErrorFile.print_structured_eq (Options : OptionsInfo)
    (escapeString : String → String) (f : ErrorFile) (hj : Options.JSON = true) :
    f.print Options escapeString
      = "    \x7b\n" ++
        "\t    \"path\"     : \"" ++ escapeString f.m_path ++ "\",\n" ++
        "\t    \"errors\"   : " ++ toString f.getErrors ++ ",\n" ++
        "\t    \"warnings\" : " ++ toString f.getWarnings ++ ",\n" ++
        "\t    \"advice\"   : " ++ toString f.getAdvice ++ ",\n" ++
        "\t    \"reports\"  : [\n" ++
        concatStrings ((ErrorFile.loopPieces Options 0 f.m_objs).map
          (Piece.text escapeString)) ++
        "\n      ]\n" ++
        "    \x7d" := by
  rw [ErrorFile.print, if_pos hj, ErrorFile.printLoopJSON_eq_pieces Options escapeString _ hj]

/-- C3 (violated by the code): at threshold Error, structured format, a file holding an Error
finding followed by an Advice finding is printed with a separator after the only object
written: the loop writes the Error object, then the comma for index 1, then nothing for the
Advice finding, so the reports array ends in a dangling comma. With the Advice finding first
the array starts with a comma, and with an Advice finding between two Errors it has two
commas in a row. -/
theorem C3_dangling_separator (escapeString : String → String) :
    ErrorFile.loopPieces ⟨false, false, true, false, 0⟩ 0
        (ErrorFile.addErrors 32 "p"
          [⟨Lint.ERROR, 3, "t1", "d1"⟩, ⟨Lint.ADVICE, 5, "t2", "d2"⟩]).m_objs
      = [Piece.obj ⟨Lint.ERROR, 3, "t1", "d1"⟩, Piece.sep] ∧
    wellSeparated (ErrorFile.loopPieces ⟨false, false, true, false, 0⟩ 0
        (ErrorFile.addErrors 32 "p"
          [⟨Lint.ERROR, 3, "t1", "d1"⟩, ⟨Lint.ADVICE, 5, "t2", "d2"⟩]).m_objs) = false ∧
    (ErrorFile.addErrors 32 "p"
        [⟨Lint.ERROR, 3, "t1", "d1"⟩, ⟨Lint.ADVICE, 5, "t2", "d2"⟩]).print
        ⟨false, false, true, false, 0⟩ escapeString
      = "    \x7b\n" ++
        "\t    \"path\"     : \"" ++ escapeString "p" ++ "\",\n" ++
        "\t    \"errors\"   : " ++ "1" ++ ",\n" ++
        "\t    \"warnings\" : " ++ "0" ++ ",\n" ++
        "\t    \"advice\"   : " ++ "1" ++ ",\n" ++
        "\t    \"reports\"  : [\n" ++
        (findingObject escapeString ⟨Lint.ERROR, 3, "t1", "d1"⟩ ++ ",\n") ++
        "\n      ]\n" ++
        "    \x7d" ∧
    ErrorFile.loopPieces ⟨false, false, true, false, 0⟩ 0
        (ErrorFile.addErrors 32 "p"
          [⟨Lint.ADVICE, 5, "t2", "d2"⟩, ⟨Lint.ERROR, 3, "t1", "d1"⟩]).m_objs
      = [Piece.sep, Piece.obj ⟨Lint.ERROR, 3, "t1", "d1"⟩] ∧
    ErrorFile.loopPieces ⟨false, false, true, false, 0⟩ 0
        (ErrorFile.addErrors 32 "p"
          [⟨Lint.ERROR, 3, "t1", "d1"⟩, ⟨Lint.ADVICE, 5, "t2", "d2"⟩,
           ⟨Lint.ERROR, 8, "t3", "d3"⟩]).m_objs
      = [Piece.obj ⟨Lint.ERROR, 3, "t1", "d1"⟩, Piece.sep, Piece.sep,
         Piece.obj ⟨Lint.ERROR, 8, "t3", "d3"⟩] := by
  have hp : ErrorFile.loopPieces ⟨false, false, true, false, 0⟩ 0
        (ErrorFile.addErrors 32 "p"
          [⟨Lint.ERROR, 3, "t1", "d1"⟩, ⟨Lint.ADVICE, 5, "t2", "d2"⟩]).m_objs
      = [Piece.obj ⟨Lint.ERROR, 3, "t1", "d1"⟩, Piece.sep] := by decide
  refine ⟨hp, by decide, ?_, by decide, by decide⟩
  rw [ErrorFile.print_structured_eq _ _ _ rfl, hp]
  have h1 : (ErrorFile.addErrors 32 "p"
      [⟨Lint.ERROR, 3, "t1", "d1"⟩, ⟨Lint.ADVICE, 5, "t2", "d2"⟩]).getErrors = 1 := by decide
  have h2 : (ErrorFile.addErrors 32 "p"
      [⟨Lint.ERROR, 3, "t1", "d1"⟩, ⟨Lint.ADVICE, 5, "t2", "d2"⟩]).getWarnings = 0 := by decide
  have h3 : (ErrorFile.addErrors 32 "p"
      [⟨Lint.ERROR, 3, "t1", "d1"⟩, ⟨Lint.ADVICE, 5, "t2", "d2"⟩]).getAdvice = 1 := by decide
  rw [h1, h2, h3, ErrorFile.addErrors_m_path]
  simp only [List.map_cons, List.map_nil, concatStrings, Piece.text, String.append_empty]
  rfl

/-- C4: for every file and every threshold `t`, the structured output of `ErrorFile::print`
is the opening brace, the escaped path, the three counters as they are (never filtered by
the threshold), the reports array and the closing lines; what is written into the reports
array are the pieces of the loop, and the finding objects among these pieces are exactly the
findings of severity at or below `t`, in insertion order, each written by `findingObject`
with its level name, line, title and description. -/
theorem C4_structured_file (Options : OptionsInfo) (escapeString : String → String)
    (f : ErrorFile) (t : Lint) (hj : Options.JSON = true)
    (ht : Options.LEVEL = (t.toNat : Int)) :
    f.print Options escapeString
      = "    \x7b\n" ++
        "\t    \"path\"     : \"" ++ escapeString f.m_path ++ "\",\n" ++
        "\t    \"errors\"   : " ++ toString f.getErrors ++ ",\n" ++
        "\t    \"warnings\" : " ++ toString f.getWarnings ++ ",\n" ++
        "\t    \"advice\"   : " ++ toString f.getAdvice ++ ",\n" ++
        "\t    \"reports\"  : [\n" ++
        concatStrings ((ErrorFile.loopPieces Options 0 f.m_objs).map
          (Piece.text escapeString)) ++
        "\n      ]\n" ++
        "    \x7d" ∧
    Piece.objects (ErrorFile.loopPieces Options 0 f.m_objs) = f.m_objs.filter (shownAt t) :=
  ⟨ErrorFile.print_structured_eq Options escapeString f hj,
    ErrorFile.loopPieces_objects Options t ht f.m_objs 0⟩

set_option maxRecDepth 8000 in
/-- C4 at the input of the claim: a file with two Errors and one Advice, at threshold
Warning, prints errors 2, warnings 0, advice 1 and the objects of the two Errors only. -/
theorem C4_structured_file_witness :
    (ErrorFile.addErrors 32 "path"
        [⟨Lint.ERROR, 3, "t1", "d1"⟩, ⟨Lint.ERROR, 4, "t2", "d2"⟩,
         ⟨Lint.ADVICE, 5, "t3", "d3"⟩]).print ⟨false, false, true, false, 1⟩ (fun s => s)
      = "    \x7b\n\t    \"path\"     : \"path\",\n" ++
        "\t    \"errors\"   : 2,\n\t    \"warnings\" : 0,\n\t    \"advice\"   : 1,\n" ++
        "\t    \"reports\"  : [\n" ++
        "        \x7b\n\t        \"level\"    : \"Error\",\n\t        \"line\"     : 3,\n" ++
        "\t        \"title\"    : \"t1\",\n\t        \"desc\"     : \"d1\"\n        \x7d,\n" ++
        "        \x7b\n\t        \"level\"    : \"Error\",\n\t        \"line\"     : 4,\n" ++
        "\t        \"title\"    : \"t2\",\n\t        \"desc\"     : \"d2\"\n        \x7d,\n" ++
        "\n      ]\n    \x7d" ∧
    Piece.objects (ErrorFile.loopPieces ⟨false, false, true, false, 1⟩ 0
        (ErrorFile.addErrors 32 "path"
          [⟨Lint.ERROR, 3, "t1", "d1"⟩, ⟨Lint.ERROR, 4, "t2", "d2"⟩,
           ⟨Lint.ADVICE, 5, "t3", "d3"⟩]).m_objs)
      = [⟨Lint.ERROR, 3, "t1", "d1"⟩, ⟨Lint.ERROR, 4, "t2", "d2"⟩] :=
  ⟨(C4_structured_file ⟨false, false, true, false, 1⟩ (fun s => s)
      (ErrorFile.addErrors 32 "path"
        [⟨Lint.ERROR, 3, "t1", "d1"⟩, ⟨Lint.ERROR, 4, "t2", "d2"⟩,
         ⟨Lint.ADVICE, 5, "t3", "d3"⟩]) Lint.WARNING rfl rfl).1.trans (by decide),
   (C4_structured_file ⟨false, false, true, false, 1⟩ (fun s => s)
      (ErrorFile.addErrors 32 "path"
        [⟨Lint.ERROR, 3, "t1", "d1"⟩, ⟨Lint.ERROR, 4, "t2", "d2"⟩,
         ⟨Lint.ADVICE, 5, "t3", "d3"⟩]) Lint.WARNING rfl rfl).2.trans (by decide)⟩

/-- C5: for every file and every threshold `t`, the human-readable output of
`ErrorFile::print` is the concatenation, over the findings of severity at or below `t` in the
order they were added, of the line `[<Level>] <path>:<line>: <title>` and a newline; findings
above `t` contribute nothing. -/
theorem C5_readable_file (Options : OptionsInfo) (escapeString : String → String)
    (f : ErrorFile) (t : Lint) (hj : Options.JSON = false)
    (ht : Options.LEVEL = (t.toNat : Int)) :
    f.print Options escapeString
      = concatStrings ((f.m_objs.filter (shownAt t)).map (fun e =>
          levelLabel e.m_type ++ f.m_path ++ ":" ++ toString e.m_line ++ ": " ++ e.m_title
            ++ "\n")) := by
  rw [ErrorFile.print, hj, if_neg Bool.false_ne_true,
    ErrorFile.printLoop_eq_lines Options escapeString f.m_path t hj ht]
  rfl

/-- C5 at the input of the claim: one Error at line 3 titled "use of bad_code" for the path
"path", at threshold Error. -/
theorem C5_readable_file_witness :
    (ErrorFile.addErrors 32 "path" [⟨Lint.ERROR, 3, "use of bad_code", "desc"⟩]).print
        ⟨false, false, false, false, 0⟩ (fun s => s)
      = "[Error  ] path:3: use of bad_code\n" :=
  (C5_readable_file ⟨false, false, false, false, 0⟩ (fun s => s)
    (ErrorFile.addErrors 32 "path" [⟨Lint.ERROR, 3, "use of bad_code", "desc"⟩])
    Lint.ERROR rfl rfl).trans (by decide)

/-! ## Rendering of a report -/

theorem ErrorReport.printLoop_eq_files (w : Nat) (Options : OptionsInfo)
    (escapeString : String → String) (fs : List ErrorFile) :
    ErrorReport.printLoop w Options escapeString fs
      = concatStrings ((fs.filter (fun f => decide (f.getTotal w > 0))).map
          (fun f => f.print Options escapeString)) := by
  induction fs with
  | nil => rfl
  | cons f fs ih =>
    rw [ErrorReport.printLoop, ih]
    by_cases h : f.getTotal w > 0
    · simp [h, List.filter_cons, concatStrings]
    · simp [h, List.filter_cons]

theorem ErrorReport.printLoopJSON_succ (Options : OptionsInfo)
    (escapeString : String → String) (fs : List ErrorFile) (i : Nat) :
    ErrorReport.printLoopJSON Options escapeString (i + 1) fs
      = concatStrings (fs.map (fun f => "," ++ "\n" ++ f.print Options escapeString)) := by
  induction fs generalizing i with
  | nil => rfl
  | cons f fs ih =>
    rw [ErrorReport.printLoopJSON, ih]
    simp [concatStrings]

theorem joinWith_cons (sep x : String) (xs : List String) :
    joinWith sep (x :: xs) = x ++ concatStrings (xs.map (fun y => sep ++ y)) := by
  induction xs generalizing x with
  | nil => simp [joinWith, concatStrings]
  | cons y ys ih => rw [joinWith, ih]; simp [concatStrings, String.append_assoc]

theorem ErrorReport.printLoopJSON_zero (Options : OptionsInfo)
    (escapeString : String → String) (fs : List ErrorFile) :
    ErrorReport.printLoopJSON Options escapeString 0 fs
      = joinWith ("," ++ "\n") (fs.map (fun f => f.print Options escapeString)) := by
  cases fs with
  | nil => rfl
  | cons f fs =>
    rw [ErrorReport.printLoopJSON, ErrorReport.printLoopJSON_succ, List.map_cons, joinWith_cons]
    simp [List.map_map, Function.comp_def]

/-- C6: for every report and every threshold, the human-readable output of
`ErrorReport::print` is the concatenation, in the order the files were added, of the
human-readable rendering of exactly the files whose `getTotal()` is nonzero, followed by the
summary; the summary reports the number of all files of the report, those with total zero
included. -/
theorem C6_readable_report_files (w : Nat) (Options : OptionsInfo)
    (escapeString : String → String) (r : ErrorReport) (hj : Options.JSON = false) :
    r.print w Options escapeString
      = concatStrings ((r.m_files.filter (fun f => decide (f.getTotal w > 0))).map
          (fun f => f.print Options escapeString)) ++
        "\nLint Summary: " ++ toString r.m_files.length ++ " files\n" ++
        "Errors: " ++ toString r.getErrors ++
        (if Options.LEVEL ≥ 1 then " Warnings: " ++ toString r.getWarnings else "") ++
        (if Options.LEVEL ≥ 2 then " Advice: " ++ toString r.getAdvice else "") ++
        "\n" := by
  rw [ErrorReport.print, hj, if_neg Bool.false_ne_true, ErrorReport.printLoop_eq_files]
  rfl

/-- C6 at a concrete input: a file without findings between two files with findings; only
the two files with findings are printed, and the summary counts 3 files. -/
theorem C6_readable_report_files_witness :
    (ErrorReport.addFiles 32
      [ErrorFile.addErrors 32 "a.cpp" [⟨Lint.ERROR, 3, "t1", "d1"⟩],
       ErrorFile.addErrors 32 "b.cpp" [],
       ErrorFile.addErrors 32 "c.cpp" [⟨Lint.WARNING, 7, "t2", "d2"⟩]]).print 32
        ⟨false, false, false, false, 2⟩ (fun s => s)
      = "[Error  ] a.cpp:3: t1\n[Warning] c.cpp:7: t2\n" ++
        "\nLint Summary: 3 files\nErrors: 1 Warnings: 1 Advice: 0\n" :=
  (C6_readable_report_files 32 ⟨false, false, false, false, 2⟩ (fun s => s)
    (ErrorReport.addFiles 32
      [ErrorFile.addErrors 32 "a.cpp" [⟨Lint.ERROR, 3, "t1", "d1"⟩],
       ErrorFile.addErrors 32 "b.cpp" [],
       ErrorFile.addErrors 32 "c.cpp" [⟨Lint.WARNING, 7, "t2", "d2"⟩]]) rfl).trans (by decide)

/-- C7: for every report and every threshold `t`, the human-readable output of
`ErrorReport::print` ends with the summary: the number of files and the run's error count
always, the run's warning count exactly when `t` is Warning or Advice, the run's advice
count exactly when `t` is Advice; each count is the run's counter, not filtered by `t`. -/
theorem C7_readable_report_summary (w : Nat) (Options : OptionsInfo)
    (escapeString : String → String) (r : ErrorReport) (t : Lint)
    (hj : Options.JSON = false) (ht : Options.LEVEL = (t.toNat : Int)) :
    r.print w Options escapeString
      = ErrorReport.printLoop w Options escapeString r.m_files ++
        "\nLint Summary: " ++ toString r.m_files.length ++ " files\n" ++
        "Errors: " ++ toString r.getErrors ++
        (if t = Lint.WARNING ∨ t = Lint.ADVICE then
          " Warnings: " ++ toString r.getWarnings else "") ++
        (if t = Lint.ADVICE then " Advice: " ++ toString r.getAdvice else "") ++
        "\n" := by
  rw [ErrorReport.print, hj, if_neg Bool.false_ne_true, ht]
  cases t <;> simp [Lint.toNat]

/-- C7 at the input of the claim: one file with one Error, at threshold Error; the summary
mentions 1 file and `Errors: 1`, and no Warnings or Advice field. -/
theorem C7_readable_report_summary_witness :
    (ErrorReport.addFiles 32
      [ErrorFile.addErrors 32 "path" [⟨Lint.ERROR, 3, "use of bad_code", "desc"⟩]]).print 32
        ⟨false, false, false, false, 0⟩ (fun s => s)
      = "[Error  ] path:3: use of bad_code\n" ++ "\nLint Summary: 1 files\nErrors: 1\n" :=
  (C7_readable_report_summary 32 ⟨false, false, false, false, 0⟩ (fun s => s)
    (ErrorReport.addFiles 32
      [ErrorFile.addErrors 32 "path" [⟨Lint.ERROR, 3, "use of bad_code", "desc"⟩]])
    Lint.ERROR rfl rfl).trans (by decide)

/-- C8: for every report and every threshold, the structured output of `ErrorReport::print`
is the opening brace, the three run counters as they are, the files array and the closing
lines; the files array holds the structured rendering of every file of the report, in the
order added, joined with exactly one separator between each two consecutive renderings and
none before the first or after the last; and every file, also one without findings, renders
as an object (its text starts with the opening brace line). -/
theorem C8_structured_report (w : Nat) (Options : OptionsInfo)
    (escapeString : String → String) (r : ErrorReport) (hj : Options.JSON = true) :
    r.print w Options escapeString
      = "\x7b\n" ++
        "\t\"errors\"   : " ++ toString r.getErrors ++ ",\n" ++
        "\t\"warnings\" : " ++ toString r.getWarnings ++ ",\n" ++
        "\t\"advice\"   : " ++ toString r.getAdvice ++ ",\n" ++
        "\t\"files\"    : [\n" ++
        joinWith ",\n" (r.m_files.map (fun f => f.print Options escapeString)) ++
        "\n  ]\n" ++
        "\x7d" ∧
    ∀ f ∈ r.m_files, ∃ rest : String, f.print Options escapeString = "    \x7b\n" ++ rest := by
  constructor
  · rw [ErrorReport.print, if_pos hj, ErrorReport.printLoopJSON_zero]
    rfl
  · intro f _
    refine ⟨"\t    \"path\"     : \"" ++ escapeString f.m_path ++ "\",\n" ++
      "\t    \"errors\"   : " ++ toString f.getErrors ++ ",\n" ++
      "\t    \"warnings\" : " ++ toString f.getWarnings ++ ",\n" ++
      "\t    \"advice\"   : " ++ toString f.getAdvice ++ ",\n" ++
      "\t    \"reports\"  : [\n" ++
      ErrorFile.printLoopJSON Options escapeString f.m_path 0 f.m_objs ++
      "\n      ]\n" ++
      "    \x7d", ?_⟩
    rw [ErrorFile.print, if_pos hj]
    simp only [String.append_assoc]

set_option maxRecDepth 8000 in
/-- C8 at a concrete input: a file with one Warning and a file without findings, at
threshold Advice; both files are written, with one separator between them. -/
theorem C8_structured_report_witness :
    (ErrorReport.addFiles 32
      [ErrorFile.addErrors 32 "a.cpp" [⟨Lint.WARNING, 3, "t1", "d1"⟩],
       ErrorFile.addErrors 32 "b.cpp" []]).print 32
        ⟨false, false, true, false, 2⟩ (fun s => s)
      = "\x7b\n\t\"errors\"   : 0,\n\t\"warnings\" : 1,\n\t\"advice\"   : 0,\n" ++
        "\t\"files\"    : [\n" ++
        "    \x7b\n\t    \"path\"     : \"a.cpp\",\n" ++
        "\t    \"errors\"   : 0,\n\t    \"warnings\" : 1,\n\t    \"advice\"   : 0,\n" ++
        "\t    \"reports\"  : [\n" ++
        "        \x7b\n\t        \"level\"    : \"Warning\",\n\t        \"line\"     : 3,\n" ++
        "\t        \"title\"    : \"t1\",\n\t        \"desc\"     : \"d1\"\n        \x7d" ++
        "\n      ]\n    \x7d" ++
        ",\n" ++
        "    \x7b\n\t    \"path\"     : \"b.cpp\",\n" ++
        "\t    \"errors\"   : 0,\n\t    \"warnings\" : 0,\n\t    \"advice\"   : 0,\n" ++
        "\t    \"reports\"  : [\n" ++
        "\n      ]\n    \x7d" ++
        "\n  ]\n\x7d" :=
  (C8_structured_report 32 ⟨false, false, true, false, 2⟩ (fun s => s)
    (ErrorReport.addFiles 32
      [ErrorFile.addErrors 32 "a.cpp" [⟨Lint.WARNING, 3, "t1", "d1"⟩],
       ErrorFile.addErrors 32 "b.cpp" []]) rfl).1.trans (by decide)

/-! ## Lines of the human-readable output -/

theorem linesOf_ne_nil (c : Char) (cs : List Char) : linesOf (c :: cs) ≠ [] := by
  unfold linesOf
  split_ifs
  · simp
  · split <;> simp

theorem linesOf_append_newline (a rest : List Char) :
    linesOf (a ++ '\n' :: rest) = linesOf (a ++ ['\n']) ++ linesOf rest := by
  induction a with
  | nil => simp [linesOf]
  | cons c a ih =>
    have e1 : linesOf (c :: (a ++ '\n' :: rest))
        = if c = '\n' then [] :: linesOf (a ++ '\n' :: rest)
          else match linesOf (a ++ '\n' :: rest) with
            | [] => [[c]]
            | l :: ls => (c :: l) :: ls := rfl
    have e2 : linesOf (c :: (a ++ ['\n']))
        = if c = '\n' then [] :: linesOf (a ++ ['\n'])
          else match linesOf (a ++ ['\n']) with
            | [] => [[c]]
            | l :: ls => (c :: l) :: ls := rfl
    rw [List.cons_append, List.cons_append, e1, e2, ih]
    by_cases hc : c = '\n'
    · rw [if_pos hc, if_pos hc, List.cons_append]
    · have hne : linesOf (a ++ ['\n']) ≠ [] := by
        cases a with
        | nil => simp [linesOf]
        | cons d a => exact linesOf_ne_nil d _
      obtain ⟨l, ls, hl⟩ := List.exists_cons_of_ne_nil hne
      rw [if_neg hc, if_neg hc, hl]
      rfl

theorem linesOf_concatStrings (L : List String) (u : List Char)
    (h : ∀ s ∈ L, ∃ a, s.data = a ++ ['\n']) :
    linesOf ((concatStrings L).data ++ u)
      = (L.map (fun s => linesOf s.data)).flatten ++ linesOf u := by
  induction L with
  | nil => simp [concatStrings]
  | cons s L ih =>
    obtain ⟨a, ha⟩ := h s (List.mem_cons_self _ _)
    have ih1 := ih (fun x hx => h x (List.mem_cons_of_mem _ hx))
    have e : (concatStrings (s :: L)).data ++ u = a ++ '\n' :: ((concatStrings L).data ++ u) := by
      simp [concatStrings, String.data_append, ha]
    rw [e, linesOf_append_newline a ((concatStrings L).data ++ u), ih1, List.map_cons,
      List.flatten_cons, ha, List.append_assoc]

theorem findingLine_ends_newline (path : String) (e : ErrorObject) :
    ∃ a, (findingLine path e).data = a ++ ['\n'] :=
  ⟨_, rfl⟩

theorem sublist_flatten {α : Type} {L₁ L₂ : List (List α)} (h : L₁.Sublist L₂) :
    L₁.flatten.Sublist L₂.flatten := by
  induction h with
  | slnil => simp
  | cons a _ ih => exact ih.trans (by simp)
  | cons₂ a _ ih => simpa using List.Sublist.append (List.Sublist.refl a) ih

theorem shownAt_mono (s t : Lint) (hst : s.toNat ≤ t.toNat) (e : ErrorObject)
    (h : shownAt s e = true) : shownAt t e = true := by
  simp only [shownAt, decide_eq_true_eq] at h ⊢
  omega

theorem filter_shownAt_sublist (s t : Lint) (hst : s.toNat ≤ t.toNat) (es : List ErrorObject) :
    (es.filter (shownAt s)).Sublist (es.filter (shownAt t)) := by
  induction es with
  | nil => simp
  | cons e es ih =>
    cases hs : shownAt s e
    · cases ht : shownAt t e
      · simpa [List.filter_cons, hs, ht] using ih
      · simpa [List.filter_cons, hs, ht] using ih.trans (List.sublist_cons_self _ _)
    · have ht := shownAt_mono s t hst e hs
      simpa [List.filter_cons, hs, ht] using ih

/-- The lines of the human-readable rendering of a file at threshold `t`. -/
theorem lines_print_file (Options : OptionsInfo) (escapeString : String → String)
    (f : ErrorFile) (t : Lint) (hj : Options.JSON = false)
    (ht : Options.LEVEL = (t.toNat : Int)) :
    lines (f.print Options escapeString)
      = (((f.m_objs.filter (shownAt t)).map
          (fun e => linesOf (findingLine f.m_path e).data)).flatten).map String.mk := by
  rw [lines, ErrorFile.print, hj, if_neg Bool.false_ne_true,
    ErrorFile.printLoop_eq_lines Options escapeString f.m_path t hj ht]
  have h := linesOf_concatStrings ((f.m_objs.filter (shownAt t)).map (findingLine f.m_path)) []
    (by
      intro x hx
      obtain ⟨e, -, rfl⟩ := List.mem_map.mp hx
      exact findingLine_ends_newline _ _)
  simp only [List.append_nil, linesOf, List.map_map] at h
  rw [h]
  rfl

/-- C9: for every file and any two thresholds `s ≤ t`, the lines of the human-readable
`ErrorFile::print` output at threshold `s` form a subsequence of the lines of the output at
threshold `t` for the same findings; with `t` = Advice, the output at Advice contains, in
order, every line output at any threshold. -/
theorem C9_threshold_monotone_file (Os Ot : OptionsInfo) (escapeString : String → String)
    (f : ErrorFile) (s t : Lint) (hjs : Os.JSON = false) (hjt : Ot.JSON = false)
    (hs : Os.LEVEL = (s.toNat : Int)) (ht : Ot.LEVEL = (t.toNat : Int))
    (hst : s.toNat ≤ t.toNat) :
    (lines (f.print Os escapeString)).Sublist (lines (f.print Ot escapeString)) := by
  rw [lines_print_file Os escapeString f s hjs hs, lines_print_file Ot escapeString f t hjt ht]
  exact List.Sublist.map _ (sublist_flatten
    (List.Sublist.map _ (filter_shownAt_sublist s t hst f.m_objs)))

/-- C9 at a concrete input: an Error, an Advice and a Warning, at thresholds Error and
Warning. -/
theorem C9_threshold_monotone_file_witness :
    lines ((ErrorFile.addErrors 32 "p"
        [⟨Lint.ERROR, 1, "t1", "d1"⟩, ⟨Lint.ADVICE, 2, "t2", "d2"⟩,
         ⟨Lint.WARNING, 3, "t3", "d3"⟩]).print ⟨false, false, false, false, 0⟩ (fun s => s))
      = ["[Error  ] p:1: t1"] ∧
    lines ((ErrorFile.addErrors 32 "p"
        [⟨Lint.ERROR, 1, "t1", "d1"⟩, ⟨Lint.ADVICE, 2, "t2", "d2"⟩,
         ⟨Lint.WARNING, 3, "t3", "d3"⟩]).print ⟨false, false, false, false, 1⟩ (fun s => s))
      = ["[Error  ] p:1: t1", "[Warning] p:3: t3"] ∧
    (lines ((ErrorFile.addErrors 32 "p"
        [⟨Lint.ERROR, 1, "t1", "d1"⟩, ⟨Lint.ADVICE, 2, "t2", "d2"⟩,
         ⟨Lint.WARNING, 3, "t3", "d3"⟩]).print ⟨false, false, false, false, 0⟩
          (fun s => s))).Sublist
      (lines ((ErrorFile.addErrors 32 "p"
        [⟨Lint.ERROR, 1, "t1", "d1"⟩, ⟨Lint.ADVICE, 2, "t2", "d2"⟩,
         ⟨Lint.WARNING, 3, "t3", "d3"⟩]).print ⟨false, false, false, false, 1⟩
          (fun s => s))) :=
  ⟨by decide, by decide,
    C9_threshold_monotone_file ⟨false, false, false, false, 0⟩ ⟨false, false, false, false, 1⟩
      (fun s => s)
      (ErrorFile.addErrors 32 "p"
        [⟨Lint.ERROR, 1, "t1", "d1"⟩, ⟨Lint.ADVICE, 2, "t2", "d2"⟩,
         ⟨Lint.WARNING, 3, "t3", "d3"⟩])
      Lint.ERROR Lint.WARNING rfl rfl rfl rfl (by decide)⟩

theorem ErrorFile.addErrors_addError_replicate (w n : Nat) (path : String) (e : ErrorObject)
    (he : e.m_type = Lint.ERROR) :
    (ErrorFile.addErrors w path (List.replicate n e)).getErrors = n % 2 ^ w ∧
    ((ErrorFile.addErrors w path (List.replicate n e)).addError w e).getErrors
      = (n + 1) % 2 ^ w := by
  constructor
  · rw [ErrorBase.getErrors, ErrorFile.addErrors_m_errors, ← he, countType_replicate_self]
  · rw [← ErrorFile.addErrors_snoc, ErrorBase.getErrors, ErrorFile.addErrors_m_errors,
      countType_snoc, ← he, countType_replicate_self, if_pos rfl]

/-- C12 (as amended): `ErrorFile::addError` is append-only. Without any condition, after
`addError(e)` the sequence of findings is the previous sequence followed by `e`, the path is
unchanged, the two counters that do not match the severity of `e` are unchanged, and
`ErrorReport::addFile` appends the file after all the files added before and leaves them
unchanged. The counter matching the severity of `e` becomes its old value plus one modulo
`2 ^ w` (`w` the width of the `uint` counters): it has grown by one when it was below
`2 ^ w - 1`, and it wraps to 0 when it was `2 ^ w - 1`. -/
theorem C12_append_only (w : Nat) (f : ErrorFile) (e : ErrorObject) (r : ErrorReport)
    (file : ErrorFile) :
    (f.addError w e).m_objs = f.m_objs ++ [e] ∧
    (f.addError w e).m_path = f.m_path ∧
    (∀ t, t ≠ e.m_type →
      counterOf t (f.addError w e).toErrorBase = counterOf t f.toErrorBase) ∧
    (r.addFile w file).m_files = r.m_files ++ [file] ∧
    counterOf e.m_type (f.addError w e).toErrorBase
      = (counterOf e.m_type f.toErrorBase + 1) % 2 ^ w ∧
    (counterOf e.m_type f.toErrorBase + 1 < 2 ^ w →
      counterOf e.m_type (f.addError w e).toErrorBase
        = counterOf e.m_type f.toErrorBase + 1) ∧
    (counterOf e.m_type f.toErrorBase + 1 = 2 ^ w →
      counterOf e.m_type (f.addError w e).toErrorBase = 0) := by
  have hmod : counterOf e.m_type (f.addError w e).toErrorBase
      = (counterOf e.m_type f.toErrorBase + 1) % 2 ^ w := by
    cases e with
    | mk ty ln ti de =>
      cases ty <;>
        simp only [counterOf, ErrorBase.getErrors, ErrorBase.getWarnings, ErrorBase.getAdvice]
      · rw [ErrorFile.addError_m_errors, if_pos rfl]
      · rw [ErrorFile.addError_m_warnings, if_pos rfl]
      · rw [ErrorFile.addError_m_advice, if_pos rfl]
  refine ⟨ErrorFile.addError_m_objs w f e, ErrorFile.addError_m_path w f e, ?_, rfl, hmod,
    ?_, ?_⟩
  · intro t ht
    cases e with
    | mk ty ln ti de =>
      cases ty <;> cases t <;>
        simp_all [counterOf, ErrorBase.getErrors, ErrorBase.getWarnings, ErrorBase.getAdvice,
          ErrorFile.addError_m_errors, ErrorFile.addError_m_warnings,
          ErrorFile.addError_m_advice]
  · intro h
    rw [hmod, Nat.mod_eq_of_lt h]
  · intro h
    rw [hmod, h, Nat.mod_self]

/-- C12 at a concrete input: a Warning added to a file that holds one Error, and a file added
to a report that holds one file; the Warning counter, which was 0, has grown by one. -/
theorem C12_append_only_witness :
    ((ErrorFile.addErrors 32 "p" [⟨Lint.ERROR, 1, "a", "b"⟩]).addError 32
        ⟨Lint.WARNING, 2, "c", "d"⟩).m_objs
      = [⟨Lint.ERROR, 1, "a", "b"⟩, ⟨Lint.WARNING, 2, "c", "d"⟩] ∧
    ((ErrorFile.addErrors 32 "p" [⟨Lint.ERROR, 1, "a", "b"⟩]).addError 32
        ⟨Lint.WARNING, 2, "c", "d"⟩).getWarnings = 1 ∧
    ((ErrorFile.addErrors 32 "p" [⟨Lint.ERROR, 1, "a", "b"⟩]).addError 32
        ⟨Lint.WARNING, 2, "c", "d"⟩).getErrors = 1 ∧
    ((ErrorReport.addFiles 32 [ErrorFile.ctor "a.cpp"]).addFile 32
        (ErrorFile.ctor "b.cpp")).m_files = [ErrorFile.ctor "a.cpp", ErrorFile.ctor "b.cpp"] :=
  ⟨(C12_append_only 32 (ErrorFile.addErrors 32 "p" [⟨Lint.ERROR, 1, "a", "b"⟩])
      ⟨Lint.WARNING, 2, "c", "d"⟩ (ErrorReport.addFiles 32 [ErrorFile.ctor "a.cpp"])
      (ErrorFile.ctor "b.cpp")).1,
   (C12_append_only 32 (ErrorFile.addErrors 32 "p" [⟨Lint.ERROR, 1, "a", "b"⟩])
      ⟨Lint.WARNING, 2, "c", "d"⟩ (ErrorReport.addFiles 32 [ErrorFile.ctor "a.cpp"])
      (ErrorFile.ctor "b.cpp")).2.2.2.2.2.1 (by decide),
   (C12_append_only 32 (ErrorFile.addErrors 32 "p" [⟨Lint.ERROR, 1, "a", "b"⟩])
      ⟨Lint.WARNING, 2, "c", "d"⟩ (ErrorReport.addFiles 32 [ErrorFile.ctor "a.cpp"])
      (ErrorFile.ctor "b.cpp")).2.2.1 Lint.ERROR (by decide),
   (C12_append_only 32 (ErrorFile.addErrors 32 "p" [⟨Lint.ERROR, 1, "a", "b"⟩])
      ⟨Lint.WARNING, 2, "c", "d"⟩ (ErrorReport.addFiles 32 [ErrorFile.ctor "a.cpp"])
      (ErrorFile.ctor "b.cpp")).2.2.2.1⟩

/-- C12 as stated fails when the 32-bit counter is at its largest value: a file built from
`2 ^ 32 - 1` Error findings has `getErrors() = 4294967295`, and after one more `addError` of
an Error finding `getErrors()` is 0, not one more. -/
theorem C12_counterexample :
    (ErrorFile.addErrors 32 "p"
      (List.replicate 4294967295 ⟨Lint.ERROR, 1, "t", "d"⟩)).getErrors = 4294967295 ∧
    ((ErrorFile.addErrors 32 "p"
      (List.replicate 4294967295 ⟨Lint.ERROR, 1, "t", "d"⟩)).addError 32
        ⟨Lint.ERROR, 1, "t", "d"⟩).getErrors = 0 := by
  obtain ⟨h1, h2⟩ :=
    ErrorFile.addErrors_addError_replicate 32 4294967295 "p" ⟨Lint.ERROR, 1, "t", "d"⟩ rfl
  refine ⟨?_, ?_⟩
  · rw [h1]; norm_num
  · rw [h2]; norm_num

/-! ## The reports array when nothing is filtered, and the label table -/

theorem ErrorFile.loopPieces_succ_advice (Options : OptionsInfo)
    (ha : Options.LEVEL = (Lint.ADVICE.toNat : Int)) (es : List ErrorObject) (i : Nat) :
    ErrorFile.loopPieces Options (i + 1) es
      = (es.map (fun e => [Piece.sep, Piece.obj e])).flatten := by
  induction es generalizing i with
  | nil => rfl
  | cons e es ih =>
    have hl : ¬ Options.LEVEL < (e.m_type.toNat : Int) := by
      rw [ha]
      cases e with
      | mk ty ln ti de => cases ty <;> simp [Lint.toNat]
    rw [ErrorFile.loopPieces, ih, if_pos (Nat.succ_pos i), if_neg hl]
    rfl

theorem ErrorFile.loopPieces_zero_advice (Options : OptionsInfo)
    (ha : Options.LEVEL = (Lint.ADVICE.toNat : Int)) (e : ErrorObject)
    (es : List ErrorObject) :
    ErrorFile.loopPieces Options 0 (e :: es)
      = Piece.obj e :: (es.map (fun x => [Piece.sep, Piece.obj x])).flatten := by
  have hl : ¬ Options.LEVEL < (e.m_type.toNat : Int) := by
    rw [ha]
    cases e with
    | mk ty ln ti de => cases ty <;> simp [Lint.toNat]
  rw [ErrorFile.loopPieces, ErrorFile.loopPieces_succ_advice Options ha, if_neg hl,
    if_neg (Nat.lt_irrefl 0)]
  rfl

theorem wellSeparated_alternating (e : ErrorObject) (es : List ErrorObject) :
    wellSeparated (Piece.obj e :: (es.map (fun x => [Piece.sep, Piece.obj x])).flatten)
      = true := by
  induction es generalizing e with
  | nil => rfl
  | cons x es ih =>
    simp only [List.map_cons, List.flatten_cons, List.cons_append, List.nil_append,
      wellSeparated]
    exact ih x

theorem count_sep_alternating (es : List ErrorObject) :
    ((es.map (fun x => [Piece.sep, Piece.obj x])).flatten).count Piece.sep = es.length := by
  induction es with
  | nil => rfl
  | cons x es ih =>
    simp only [List.map_cons, List.flatten_cons, List.cons_append, List.nil_append,
      List.count_cons, List.length_cons, ih]
    simp

theorem objects_alternating (es : List ErrorObject) :
    Piece.objects ((es.map (fun x => [Piece.sep, Piece.obj x])).flatten) = es := by
  induction es with
  | nil => rfl
  | cons x es ih =>
    have e : ((x :: es).map (fun x => [Piece.sep, Piece.obj x])).flatten
        = Piece.sep :: Piece.obj x
          :: (es.map (fun x => [Piece.sep, Piece.obj x])).flatten := rfl
    rw [e, Piece.objects, Piece.objects, ih]

theorem concat_alternating (escapeString : String → String) (e : ErrorObject)
    (es : List ErrorObject) :
    concatStrings ((Piece.obj e :: (es.map (fun x => [Piece.sep, Piece.obj x])).flatten).map
        (Piece.text escapeString))
      = joinWith ("," ++ "\n") ((e :: es).map (findingObject escapeString)) := by
  rw [List.map_cons, List.map_cons, joinWith_cons, concatStrings, Piece.text]
  congr 1
  induction es with
  | nil => rfl
  | cons x es ih =>
    have e : ((x :: es).map (fun x => [Piece.sep, Piece.obj x])).flatten
        = Piece.sep :: Piece.obj x
          :: (es.map (fun x => [Piece.sep, Piece.obj x])).flatten := rfl
    rw [e, List.map_cons, List.map_cons, concatStrings, concatStrings, ih, Piece.text,
      Piece.text, List.map_cons, List.map_cons, concatStrings]
    simp only [String.append_assoc]

/-- C16: for every file with `n` findings rendered in the structured format at the most
permissive threshold (Advice), the loop of `ErrorFile::print` writes the objects of all `n`
findings, in order, and exactly `n - 1` separators (none when `n = 0`), and every separator
stands between two written objects: the reports array is the objects joined with one
separator between each two consecutive ones. -/
theorem C16_unfiltered_separators (Options : OptionsInfo) (escapeString : String → String)
    (f : ErrorFile) (hj : Options.JSON = true)
    (ha : Options.LEVEL = (Lint.ADVICE.toNat : Int)) :
    Piece.objects (ErrorFile.loopPieces Options 0 f.m_objs) = f.m_objs ∧
    (ErrorFile.loopPieces Options 0 f.m_objs).count Piece.sep = f.m_objs.length - 1 ∧
    wellSeparated (ErrorFile.loopPieces Options 0 f.m_objs) = true ∧
    f.print Options escapeString
      = "    \x7b\n" ++
        "\t    \"path\"     : \"" ++ escapeString f.m_path ++ "\",\n" ++
        "\t    \"errors\"   : " ++ toString f.getErrors ++ ",\n" ++
        "\t    \"warnings\" : " ++ toString f.getWarnings ++ ",\n" ++
        "\t    \"advice\"   : " ++ toString f.getAdvice ++ ",\n" ++
        "\t    \"reports\"  : [\n" ++
        joinWith ",\n" (f.m_objs.map (findingObject escapeString)) ++
        "\n      ]\n" ++
        "    \x7d" := by
  rw [ErrorFile.print_structured_eq Options escapeString f hj]
  cases hes : f.m_objs with
  | nil => exact ⟨rfl, rfl, rfl, rfl⟩
  | cons e es =>
    rw [ErrorFile.loopPieces_zero_advice Options ha]
    refine ⟨?_, ?_, wellSeparated_alternating e es, ?_⟩
    · rw [Piece.objects, objects_alternating]
    · rw [List.count_cons, count_sep_alternating]
      simp
    · rw [concat_alternating]
      rfl

set_option maxRecDepth 8000 in
/-- C16 at a concrete input: an Error and an Advice finding at threshold Advice; both
objects are written, with one separator between them. -/
theorem C16_unfiltered_separators_witness :
    ErrorFile.loopPieces ⟨false, false, true, false, 2⟩ 0
        (ErrorFile.addErrors 32 "p"
          [⟨Lint.ERROR, 3, "t1", "d1"⟩, ⟨Lint.ADVICE, 5, "t2", "d2"⟩]).m_objs
      = [Piece.obj ⟨Lint.ERROR, 3, "t1", "d1"⟩, Piece.sep,
         Piece.obj ⟨Lint.ADVICE, 5, "t2", "d2"⟩] ∧
    (ErrorFile.loopPieces ⟨false, false, true, false, 2⟩ 0
        (ErrorFile.addErrors 32 "p"
          [⟨Lint.ERROR, 3, "t1", "d1"⟩, ⟨Lint.ADVICE, 5, "t2", "d2"⟩]).m_objs).count Piece.sep
      = 1 ∧
    wellSeparated (ErrorFile.loopPieces ⟨false, false, true, false, 2⟩ 0
        (ErrorFile.addErrors 32 "p"
          [⟨Lint.ERROR, 3, "t1", "d1"⟩, ⟨Lint.ADVICE, 5, "t2", "d2"⟩]).m_objs) = true :=
  ⟨by decide,
   (C16_unfiltered_separators ⟨false, false, true, false, 2⟩ (fun s => s)
      (ErrorFile.addErrors 32 "p"
        [⟨Lint.ERROR, 3, "t1", "d1"⟩, ⟨Lint.ADVICE, 5, "t2", "d2"⟩]) rfl rfl).2.1,
   (C16_unfiltered_separators ⟨false, false, true, false, 2⟩ (fun s => s)
      (ErrorFile.addErrors 32 "p"
        [⟨Lint.ERROR, 3, "t1", "d1"⟩, ⟨Lint.ADVICE, 5, "t2", "d2"⟩]) rfl rfl).2.2.1⟩

/-- C17: for every severity, the two lookups of `ErrorObject::print` in the label table, at
index severity for the human-readable label and at index severity + 3 for the structured
level name, are within the 6 entries of the table, and the two entries found name the same
severity: the label is the level name in brackets, padded with blanks to 7 characters and
followed by a blank (`[Error  ] ` with `Error`, `[Warning] ` with `Warning`, `[Advice ] `
with `Advice`). -/
theorem C17_label_lookups (t : Lint) :
    typeStr.length = 6 ∧
    t.toNat < typeStr.length ∧
    t.toNat + 3 < typeStr.length ∧
    typeStr[t.toNat]? = some (levelLabel t) ∧
    typeStr[t.toNat + 3]? = some (levelName t) ∧
    levelLabel t
      = "[" ++ levelName t ++ String.mk (List.replicate (7 - (levelName t).length) ' ')
          ++ "] " ∧
    (typeStr[Lint.ERROR.toNat]? = some "[Error  ] " ∧
      typeStr[Lint.ERROR.toNat + 3]? = some "Error") ∧
    (typeStr[Lint.WARNING.toNat]? = some "[Warning] " ∧
      typeStr[Lint.WARNING.toNat + 3]? = some "Warning") ∧
    (typeStr[Lint.ADVICE.toNat]? = some "[Advice ] " ∧
      typeStr[Lint.ADVICE.toNat + 3]? = some "Advice") := by
  cases t <;> decide

/-! ## The command line: how `parseArgs` reads its arguments -/

theorem argRoles_bool (a : String) (rest : List String) (ptr : BoolVar)
    (h : paramsFind a = some (Arg.BOOL ptr)) :
    argRoles (a :: rest) = (a, Role.flag (Arg.BOOL ptr)) :: argRoles rest := by
  cases rest <;> simp [argRoles, h]

theorem argRoles_int_nil (a : String) (h : paramsFind a = some Arg.INT) :
    argRoles [a] = [(a, Role.flag Arg.INT)] := by
  rw [argRoles, h]

theorem argRoles_int_cons (a v : String) (rest : List String)
    (h : paramsFind a = some Arg.INT) :
    argRoles (a :: v :: rest)
      = (a, Role.flag Arg.INT) :: (v, Role.levelValue) :: argRoles rest := by
  rw [argRoles, h]

theorem argRoles_path (a : String) (rest : List String) (h : paramsFind a = none) :
    argRoles (a :: rest) = (a, Role.path) :: argRoles rest := by
  cases rest <;> simp [argRoles, h]

theorem parseLoop_bool (atoi : String → Int) (a : String) (rest : List String)
    (st : ParseState) (ptr : BoolVar) (h : paramsFind a = some (Arg.BOOL ptr)) :
    parseLoop atoi (a :: rest) st = parseLoop atoi rest (st.setBool ptr) := by
  cases rest <;> simp [parseLoop, h]

theorem parseLoop_int_nil (atoi : String → Int) (a : String) (st : ParseState)
    (h : paramsFind a = some Arg.INT) :
    parseLoop atoi [a] st
      = LoopResult.exited
          ("Missing (int) value for parameter: " ++ a ++ "\n\n" ++ usageText) := by
  rw [parseLoop, h]

theorem parseLoop_int_cons (atoi : String → Int) (a v : String) (rest : List String)
    (st : ParseState) (h : paramsFind a = some Arg.INT) :
    parseLoop atoi (a :: v :: rest) st
      = parseLoop atoi rest { st with Options := { st.Options with LEVEL := atoi v } } := by
  rw [parseLoop, h]

theorem parseLoop_path_empty (atoi : String → Int) (a : String) (rest : List String)
    (st : ParseState) (h : paramsFind a = none) (he : a.data.getLast? = none) :
    parseLoop atoi (a :: rest) st = LoopResult.undefinedBack := by
  cases rest <;> simp [parseLoop, h, he]

theorem stripTrailing_of_getLast (a : String) (c : Char) (hc : a.data.getLast? = some c) :
    stripTrailing a = if c = '/' ∨ c = '\\' then String.mk a.data.dropLast else a := by
  rw [stripTrailing]
  simp only [hc]

theorem parseLoop_path (atoi : String → Int) (a : String) (rest : List String)
    (st : ParseState) (h : paramsFind a = none) (hne : a ≠ "") :
    parseLoop atoi (a :: rest) st
      = parseLoop atoi rest { st with paths := st.paths ++ [stripTrailing a] } := by
  have hd : a.data ≠ [] := fun hd => hne (String.ext hd)
  obtain ⟨c, hc⟩ : ∃ c, a.data.getLast? = some c := by
    cases hl : a.data.getLast? with
    | none => exact absurd (List.getLast?_eq_none_iff.mp hl) hd
    | some c => exact ⟨c, rfl⟩
  rw [stripTrailing_of_getLast a c hc]
  cases rest <;> simp [parseLoop, h, hc]

theorem pathArgs_bool (a : String) (rest : List String) (ptr : BoolVar)
    (h : paramsFind a = some (Arg.BOOL ptr)) : pathArgs (a :: rest) = pathArgs rest := by
  simp [pathArgs, argRoles_bool a rest ptr h]

theorem pathArgs_int_cons (a v : String) (rest : List String)
    (h : paramsFind a = some Arg.INT) : pathArgs (a :: v :: rest) = pathArgs rest := by
  simp [pathArgs, argRoles_int_cons a v rest h]

theorem pathArgs_path (a : String) (rest : List String) (h : paramsFind a = none) :
    pathArgs (a :: rest) = a :: pathArgs rest := by
  simp [pathArgs, argRoles_path a rest h]

theorem levelValues_bool (a : String) (rest : List String) (ptr : BoolVar)
    (h : paramsFind a = some (Arg.BOOL ptr)) : levelValues (a :: rest) = levelValues rest := by
  simp [levelValues, argRoles_bool a rest ptr h]

theorem levelValues_int_cons (a v : String) (rest : List String)
    (h : paramsFind a = some Arg.INT) :
    levelValues (a :: v :: rest) = v :: levelValues rest := by
  simp [levelValues, argRoles_int_cons a v rest h]

theorem levelValues_path (a : String) (rest : List String) (h : paramsFind a = none) :
    levelValues (a :: rest) = levelValues rest := by
  simp [levelValues, argRoles_path a rest h]

theorem readsFlag_bool (b : BoolVar) (a : String) (rest : List String) (ptr : BoolVar)
    (h : paramsFind a = some (Arg.BOOL ptr)) :
    readsFlag b (a :: rest) = (decide (ptr = b) || readsFlag b rest) := by
  simp [readsFlag, argRoles_bool a rest ptr h]

theorem readsFlag_int_cons (b : BoolVar) (a v : String) (rest : List String)
    (h : paramsFind a = some Arg.INT) :
    readsFlag b (a :: v :: rest) = readsFlag b rest := by
  simp [readsFlag, argRoles_int_cons a v rest h]

theorem readsFlag_path (b : BoolVar) (a : String) (rest : List String)
    (h : paramsFind a = none) : readsFlag b (a :: rest) = readsFlag b rest := by
  simp [readsFlag, argRoles_path a rest h]

theorem levelWithoutValue_bool (a : String) (rest : List String) (ptr : BoolVar)
    (h : paramsFind a = some (Arg.BOOL ptr)) :
    levelWithoutValue (a :: rest) = levelWithoutValue rest := by
  rw [levelWithoutValue, levelWithoutValue, argRoles_bool a rest ptr h]
  cases hr : argRoles rest with
  | nil => rfl
  | cons x xs => rw [List.getLast?_cons_cons]

theorem levelWithoutValue_int_nil (a : String) (h : paramsFind a = some Arg.INT) :
    levelWithoutValue [a] = true := by
  rw [levelWithoutValue, argRoles_int_nil a h]
  rfl

theorem levelWithoutValue_int_cons (a v : String) (rest : List String)
    (h : paramsFind a = some Arg.INT) :
    levelWithoutValue (a :: v :: rest) = levelWithoutValue rest := by
  rw [levelWithoutValue, levelWithoutValue, argRoles_int_cons a v rest h]
  cases hr : argRoles rest with
  | nil => rfl
  | cons x xs => rw [List.getLast?_cons_cons, List.getLast?_cons_cons]

theorem levelWithoutValue_path (a : String) (rest : List String) (h : paramsFind a = none) :
    levelWithoutValue (a :: rest) = levelWithoutValue rest := by
  rw [levelWithoutValue, levelWithoutValue, argRoles_path a rest h]
  cases hr : argRoles rest with
  | nil => rfl
  | cons x xs => rw [List.getLast?_cons_cons]

/-- The loop of `parseArgs` runs to its end, with the outcome `loopOutcome`, when no path
argument is empty and every level flag has a value. -/
theorem parseLoop_done (atoi : String → Int) (args : List String) (st : ParseState)
    (hne : ∀ a ∈ pathArgs args, a ≠ "") (hval : levelWithoutValue args = false) :
    parseLoop atoi args st = LoopResult.done (loopOutcome atoi args st) := by
  induction args using argRoles.induct generalizing st with
  | case1 =>
    cases st with
    | mk o hp ps =>
      cases o
      simp [parseLoop, loopOutcome, readsFlag, levelValues, pathArgs, argRoles]
  | case2 a rest ptr h ih =>
    rw [pathArgs_bool a rest ptr h] at hne
    rw [levelWithoutValue_bool a rest ptr h] at hval
    rw [parseLoop_bool atoi a rest st ptr h, ih _ hne hval]
    congr 1
    cases ptr <;>
      simp [loopOutcome, ParseState.setBool, readsFlag_bool _ a rest _ h,
        levelValues_bool a rest _ h, pathArgs_bool a rest _ h]
  | case3 a h =>
    rw [levelWithoutValue_int_nil a h] at hval
    exact absurd hval (by decide)
  | case4 a h v rest ih =>
    rw [pathArgs_int_cons a v rest h] at hne
    rw [levelWithoutValue_int_cons a v rest h] at hval
    rw [parseLoop_int_cons atoi a v rest st h, ih _ hne hval]
    congr 1
    simp only [loopOutcome, readsFlag_int_cons _ a v rest h, levelValues_int_cons a v rest h,
      pathArgs_int_cons a v rest h]
    cases hl : (levelValues rest).getLast? with
    | none =>
      have : levelValues rest = [] := List.getLast?_eq_none_iff.mp hl
      simp [this]
    | some u =>
      have : (v :: levelValues rest).getLast? = some u := by
        cases hr : levelValues rest with
        | nil => rw [hr] at hl; simp at hl
        | cons x xs => rw [List.getLast?_cons_cons, ← hr, hl]
      simp [this]
  | case5 a rest h ih =>
    rw [pathArgs_path a rest h] at hne
    rw [levelWithoutValue_path a rest h] at hval
    have hne1 : a ≠ "" := hne a (List.mem_cons_self _ _)
    have hne2 : ∀ x ∈ pathArgs rest, x ≠ "" := fun x hx => hne x (List.mem_cons_of_mem _ hx)
    rw [parseLoop_path atoi a rest st h hne1, ih _ hne2 hval]
    congr 1
    simp [loopOutcome, readsFlag_path _ a rest h, levelValues_path a rest h,
      pathArgs_path a rest h]

/-- The loop of `parseArgs` ends in `printHelp` when the last argument is read as a level
flag, as long as no path argument is empty. -/
theorem parseLoop_exited (atoi : String → Int) (args : List String) (st : ParseState)
    (hne : ∀ a ∈ pathArgs args, a ≠ "") (hval : levelWithoutValue args = true) :
    ∃ a, args.getLast? = some a ∧ paramsFind a = some Arg.INT ∧
      parseLoop atoi args st
        = LoopResult.exited
            ("Missing (int) value for parameter: " ++ a ++ "\n\n" ++ usageText) := by
  induction args using argRoles.induct generalizing st with
  | case1 => exact absurd hval (by decide)
  | case2 a rest ptr h ih =>
    rw [pathArgs_bool a rest ptr h] at hne
    rw [levelWithoutValue_bool a rest ptr h] at hval
    obtain ⟨x, hx, hp, hr⟩ := ih (st.setBool ptr) hne hval
    refine ⟨x, ?_, hp, ?_⟩
    · cases rest with
      | nil => simp at hx
      | cons y ys => rw [List.getLast?_cons_cons, hx]
    · rw [parseLoop_bool atoi a rest st ptr h, hr]
  | case3 a h => exact ⟨a, rfl, h, parseLoop_int_nil atoi a st h⟩
  | case4 a h v rest ih =>
    rw [pathArgs_int_cons a v rest h] at hne
    rw [levelWithoutValue_int_cons a v rest h] at hval
    obtain ⟨x, hx, hp, hr⟩ := ih _ hne hval
    refine ⟨x, ?_, hp, ?_⟩
    · cases rest with
      | nil => simp at hx
      | cons y ys => rw [List.getLast?_cons_cons, List.getLast?_cons_cons, hx]
    · rw [parseLoop_int_cons atoi a v rest st h, hr]
  | case5 a rest h ih =>
    rw [pathArgs_path a rest h] at hne
    rw [levelWithoutValue_path a rest h] at hval
    have hne1 : a ≠ "" := hne a (List.mem_cons_self _ _)
    have hne2 : ∀ x ∈ pathArgs rest, x ≠ "" := fun x hx => hne x (List.mem_cons_of_mem _ hx)
    obtain ⟨x, hx, hp, hr⟩ := ih _ hne2 hval
    refine ⟨x, ?_, hp, ?_⟩
    · cases rest with
      | nil => simp at hx
      | cons y ys => rw [List.getLast?_cons_cons, hx]
    · rw [parseLoop_path atoi a rest st h hne1, hr]

theorem paramsFind_bool_iff (a : String) (b : BoolVar) :
    paramsFind a = some (Arg.BOOL b) ↔
      a ∈ (match b with
        | BoolVar.HELP => ["-h", "--help"]
        | BoolVar.RECURSIVE => ["-r", "--recursive"]
        | BoolVar.CMODE => ["-c", "--cmode"]
        | BoolVar.JSON => ["-j", "--json"]) := by
  cases b
  all_goals
    unfold paramsFind params
    simp only [List.lookup, argHelp, argRecursive, argCMode, argJSON, argLevel]
    repeat' split
    all_goals simp_all

theorem paramsFind_int_iff (a : String) :
    paramsFind a = some Arg.INT ↔ a = "-l" ∨ a = "--level" := by
  unfold paramsFind params
  simp only [List.lookup, argHelp, argRecursive, argCMode, argJSON, argLevel]
  repeat' split
  all_goals simp_all

theorem mem_of_mem_pathArgs (args : List String) : ∀ a ∈ pathArgs args, a ∈ args := by
  induction args using argRoles.induct with
  | case1 => intro a ha; simp [pathArgs, argRoles] at ha
  | case2 x rest ptr h ih =>
    intro a ha
    rw [pathArgs_bool x rest ptr h] at ha
    exact List.mem_cons_of_mem _ (ih a ha)
  | case3 x h =>
    intro a ha
    simp [pathArgs, argRoles_int_nil x h] at ha
  | case4 x h v rest ih =>
    intro a ha
    rw [pathArgs_int_cons x v rest h] at ha
    exact List.mem_cons_of_mem _ (List.mem_cons_of_mem _ (ih a ha))
  | case5 x rest h ih =>
    intro a ha
    rw [pathArgs_path x rest h] at ha
    rcases List.mem_cons.mp ha with rfl | ha
    · exact List.mem_cons_self _ _
    · exact List.mem_cons_of_mem _ (ih a ha)

theorem clampLevel_range (n : Int) : clampLevel n = 0 ∨ clampLevel n = 1 ∨ clampLevel n = 2 := by
  unfold clampLevel
  split_ifs <;> omega

theorem requestedLevel_range (atoi : String → Int) (args : List String) :
    requestedLevel atoi args = 0 ∨ requestedLevel atoi args = 1 ∨
      requestedLevel atoi args = 2 := by
  unfold requestedLevel
  split
  · exact Or.inr (Or.inr rfl)
  · exact clampLevel_range _

/-- What `parseArgs` does once its loop has run to its end: no path argument is empty and
every level flag has a value. -/
theorem parseArgs_of_done (atoi : String → Int) (Options : OptionsInfo) (argv : List String)
    (paths : List String) (hne : ∀ a ∈ pathArgs argv.tail, a ≠ "")
    (hval : levelWithoutValue argv.tail = false) :
    parseArgs atoi Options argv paths
      = if readsFlag BoolVar.HELP argv.tail = true ∨ argv.length = 1 ∨
            (paths = [] ∧ pathArgs argv.tail = []) then
          ParseResult.exited usageText
        else
          ParseResult.returned
            { RECURSIVE := readsFlag BoolVar.RECURSIVE argv.tail,
              CMODE := readsFlag BoolVar.CMODE argv.tail,
              JSON := readsFlag BoolVar.JSON argv.tail,
              VERBOSE := Options.VERBOSE,
              LEVEL := requestedLevel atoi argv.tail }
            (paths ++ (pathArgs argv.tail).map stripTrailing) := by
  unfold parseArgs
  rw [parseLoop_done atoi argv.tail _ hne hval]
  have hc : ((loopOutcome atoi argv.tail
        { Options := { Options with
            RECURSIVE := false, CMODE := false, JSON := false,
            LEVEL := (Lint.ADVICE.toNat : Int) },
          HELP := false, paths := paths }).HELP = true ∨ argv.length = 1 ∨
      (loopOutcome atoi argv.tail
        { Options := { Options with
            RECURSIVE := false, CMODE := false, JSON := false,
            LEVEL := (Lint.ADVICE.toNat : Int) },
          HELP := false, paths := paths }).paths.length = 0) ↔
      (readsFlag BoolVar.HELP argv.tail = true ∨ argv.length = 1 ∨
        (paths = [] ∧ pathArgs argv.tail = [])) := by
    simp [loopOutcome]
  by_cases h : readsFlag BoolVar.HELP argv.tail = true ∨ argv.length = 1 ∨
      (paths = [] ∧ pathArgs argv.tail = [])
  · rw [if_pos h]
    exact if_pos (hc.mpr h)
  · rw [if_neg h]
    refine (if_neg (fun hh => h (hc.mp hh))).trans ?_
    congr 1
    simp only [loopOutcome, requestedLevel, clampLevel, Lint.toNat, Bool.false_or]
    cases (levelValues argv.tail).getLast? with
    | none => simp
    | some v => simp

/-- What `parseArgs` does when the last argument is read as a level flag and no path
argument is empty. -/
theorem parseArgs_of_exited (atoi : String → Int) (Options : OptionsInfo) (argv : List String)
    (paths : List String) (hne : ∀ a ∈ pathArgs argv.tail, a ≠ "")
    (hval : levelWithoutValue argv.tail = true) :
    ∃ a, argv.tail.getLast? = some a ∧ paramsFind a = some Arg.INT ∧
      parseArgs atoi Options argv paths
        = ParseResult.exited
            ("Missing (int) value for parameter: " ++ a ++ "\n\n" ++ usageText) := by
  obtain ⟨a, ha, hp, hr⟩ := parseLoop_exited atoi argv.tail
    { Options := { Options with
        RECURSIVE := false, CMODE := false, JSON := false,
        LEVEL := (Lint.ADVICE.toNat : Int) },
      HELP := false, paths := paths } hne hval
  refine ⟨a, ha, hp, ?_⟩
  unfold parseArgs
  rw [hr]

/-! ## The command line: level, paths, exit -/

/-- C11 (as amended): for every argument list in which at least one argument is read as a
path, no argument is read as a help flag, every argument read as a `-l`/`--level` flag has a
value after it and no argument read as a path is the empty string, `parseArgs` returns and
leaves `Options.LEVEL` in 0, 1, 2: it is Advice (2) when no level value is read, and else
the integer `atoi` gives for the last level value read, clamped to the nearest of 0 and 2
(below 0 becomes 0, above 2 becomes 2, 0 to 2 are kept). An argument is read as a flag when
it is one of the flag strings and is not the value of a level flag read just before it. -/
theorem C11_level_clamped (atoi : String → Int) (Options : OptionsInfo) (argv : List String)
    (paths : List String) (hpath : pathArgs argv.tail ≠ [])
    (hhelp : readsFlag BoolVar.HELP argv.tail = false)
    (hval : levelWithoutValue argv.tail = false)
    (hne : ∀ a ∈ pathArgs argv.tail, a ≠ "") :
    ∃ O ps, parseArgs atoi Options argv paths = ParseResult.returned O ps ∧
      (O.LEVEL = 0 ∨ O.LEVEL = 1 ∨ O.LEVEL = 2) ∧
      ((levelValues argv.tail).getLast? = none → O.LEVEL = 2) ∧
      (∀ v, (levelValues argv.tail).getLast? = some v →
        O.LEVEL = if atoi v > 2 then 2 else if atoi v < 0 then 0 else atoi v) := by
  have hlen : argv.length ≠ 1 := by
    intro h
    match argv, h with
    | [x], _ => exact hpath rfl
  have hcond : ¬ (readsFlag BoolVar.HELP argv.tail = true ∨ argv.length = 1 ∨
      (paths = [] ∧ pathArgs argv.tail = [])) := by
    rintro (h | h | ⟨-, h⟩)
    · rw [hhelp] at h; exact absurd h (by decide)
    · exact hlen h
    · exact hpath h
  refine ⟨_, _, (parseArgs_of_done atoi Options argv paths hne hval).trans (if_neg hcond),
    requestedLevel_range atoi argv.tail, ?_, ?_⟩
  · intro h
    simp only [requestedLevel, h]
  · intro v h
    simp only [requestedLevel, h, clampLevel]

set_option maxRecDepth 8000 in
/-- C11 at a concrete input: the levels 7 and then -3 are given; the last one, clamped, is
Error (0). -/
theorem C11_level_clamped_witness :
    parseArgs cAtoi ⟨false, false, false, false, 0⟩
        ["flint++", "-l", "7", "src/", "--level", "-3"] []
      = ParseResult.returned ⟨false, false, false, false, 0⟩ ["src"] ∧
    ∃ O ps, parseArgs cAtoi ⟨false, false, false, false, 0⟩
        ["flint++", "-l", "7", "src/", "--level", "-3"] [] = ParseResult.returned O ps ∧
      (O.LEVEL = 0 ∨ O.LEVEL = 1 ∨ O.LEVEL = 2) ∧
      ((levelValues ["flint++", "-l", "7", "src/", "--level", "-3"].tail).getLast? = none →
        O.LEVEL = 2) ∧
      (∀ v, (levelValues ["flint++", "-l", "7", "src/", "--level", "-3"].tail).getLast?
          = some v →
        O.LEVEL = if cAtoi v > 2 then 2 else if cAtoi v < 0 then 0 else cAtoi v) :=
  ⟨by decide,
    C11_level_clamped cAtoi ⟨false, false, false, false, 0⟩
      ["flint++", "-l", "7", "src/", "--level", "-3"] []
      (by decide) (by decide) (by decide) (by decide)⟩

set_option maxRecDepth 8000 in
/-- C11 as stated fails when the last argument is a level flag: the list names the path
`src` and has no help flag, and `parseArgs` prints the missing value message and the usage
text and exits. -/
theorem C11_counterexample :
    parseArgs cAtoi ⟨false, false, false, false, 0⟩ ["flint++", "src", "-l"] []
      = ParseResult.exited ("Missing (int) value for parameter: -l\n\n" ++ usageText) ∧
    pathArgs ["src", "-l"] = ["src"] ∧
    readsFlag BoolVar.HELP ["src", "-l"] = false := by
  refine ⟨by decide, by decide, by decide⟩

/-- C14 (as amended): for every argument list of non-empty strings on which `parseArgs`
returns, the vector `paths` receives, after what it held and in command line order, exactly
the arguments after `argv[0]` that are read as paths, each with a single trailing `/` or `\`
removed if present and otherwise unchanged. An argument is read as a path when it is none of
the ten flag strings and is not read as the value of a level flag; the argument after `-l` or
`--level` is read as that flag's value only when that `-l` or `--level` is itself read as a
flag, not as the value of a level flag before it. -/
theorem C14_paths_collected (atoi : String → Int) (Options : OptionsInfo)
    (argv : List String) (paths : List String) (O : OptionsInfo) (ps : List String)
    (hne : ∀ a ∈ argv.tail, a ≠ "")
    (hret : parseArgs atoi Options argv paths = ParseResult.returned O ps) :
    ps = paths ++ (pathArgs argv.tail).map stripTrailing := by
  have hne1 : ∀ a ∈ pathArgs argv.tail, a ≠ "" :=
    fun a ha => hne a (mem_of_mem_pathArgs _ a ha)
  cases hval : levelWithoutValue argv.tail with
  | true =>
    obtain ⟨a, -, -, hr⟩ := parseArgs_of_exited atoi Options argv paths hne1 hval
    rw [hr] at hret
    exact ParseResult.noConfusion hret
  | false =>
    rw [parseArgs_of_done atoi Options argv paths hne1 hval] at hret
    split_ifs at hret
    injection hret with _ h2
    exact h2.symm

/-- C14 at a concrete input: flags, a level with its value and two paths, one with a
trailing separator. -/
theorem C14_paths_collected_witness :
    parseArgs cAtoi ⟨false, false, false, false, 0⟩
        ["flint++", "-r", "src/", "-l", "1", "lib\\", "--json"] []
      = ParseResult.returned ⟨true, false, true, false, 1⟩ ["src", "lib"] ∧
    ["src", "lib"]
      = [] ++ (pathArgs ["flint++", "-r", "src/", "-l", "1", "lib\\", "--json"].tail).map
          stripTrailing :=
  ⟨by decide,
    C14_paths_collected cAtoi ⟨false, false, false, false, 0⟩
      ["flint++", "-r", "src/", "-l", "1", "lib\\", "--json"] []
      ⟨true, false, true, false, 1⟩ ["src", "lib"] (by decide) (by decide)⟩

/-- C14 as stated fails when the value of a level flag is itself `-l`: in
`flint++ -l -l x` the second `-l` is the value of the first, so `x` is read as a path and
`parseArgs` returns with `paths = ["x"]`, although `x` stands immediately after `-l`; by the
text of the arguments alone no path would be collected. -/
theorem C14_counterexample :
    parseArgs cAtoi ⟨false, false, false, false, 0⟩ ["flint++", "-l", "-l", "x"] []
      = ParseResult.returned ⟨false, false, false, false, 0⟩ ["x"] ∧
    literalPathArgs false ["-l", "-l", "x"] = [] := by
  refine ⟨by decide, by decide⟩

/-- C15 (as amended): called with an empty vector `paths` and an argument list in which no
argument read as a path is the empty string, `parseArgs` prints the usage text and exits if
and only if an argument is read as a help flag, or no argument is read as a path, or the last
argument is read as a `-l`/`--level` flag (which then has no value); in every other case it
returns with `Options.RECURSIVE`, `Options.CMODE` and `Options.JSON` each true exactly when
an argument is read as its flag. An argument is read as a flag when it is one of the flag
strings and is not the value of a level flag read just before it. -/
theorem C15_exit_or_flags (atoi : String → Int) (Options : OptionsInfo) (argv : List String)
    (hne : ∀ a ∈ pathArgs argv.tail, a ≠ "") :
    ((∃ pre, parseArgs atoi Options argv [] = ParseResult.exited (pre ++ usageText)) ↔
      (readsFlag BoolVar.HELP argv.tail = true ∨ pathArgs argv.tail = [] ∨
        levelWithoutValue argv.tail = true)) ∧
    (¬ (readsFlag BoolVar.HELP argv.tail = true ∨ pathArgs argv.tail = [] ∨
        levelWithoutValue argv.tail = true) →
      ∃ O ps, parseArgs atoi Options argv [] = ParseResult.returned O ps ∧
        O.RECURSIVE = readsFlag BoolVar.RECURSIVE argv.tail ∧
        O.CMODE = readsFlag BoolVar.CMODE argv.tail ∧
        O.JSON = readsFlag BoolVar.JSON argv.tail) := by
  have hlen : argv.length = 1 → pathArgs argv.tail = [] := by
    intro h
    match argv, h with
    | [x], _ => rfl
  cases hval : levelWithoutValue argv.tail with
  | true =>
    obtain ⟨a, -, -, hr⟩ := parseArgs_of_exited atoi Options argv [] hne hval
    refine ⟨⟨fun _ => Or.inr (Or.inr rfl), fun _ => ⟨_, hr⟩⟩, fun h => ?_⟩
    exact absurd (Or.inr (Or.inr rfl)) h
  | false =>
    have hd := parseArgs_of_done atoi Options argv [] hne hval
    by_cases hc : readsFlag BoolVar.HELP argv.tail = true ∨ argv.length = 1 ∨
        (([] : List String) = [] ∧ pathArgs argv.tail = [])
    · rw [if_pos hc] at hd
      have hc2 : readsFlag BoolVar.HELP argv.tail = true ∨ pathArgs argv.tail = [] ∨
          false = true := by
        rcases hc with h | h | ⟨-, h⟩
        · exact Or.inl h
        · exact Or.inr (Or.inl (hlen h))
        · exact Or.inr (Or.inl h)
      exact ⟨⟨fun _ => hc2, fun _ => ⟨"", hd⟩⟩, fun h => absurd hc2 h⟩
    · rw [if_neg hc] at hd
      refine ⟨⟨fun ⟨pre, hp⟩ => ?_, fun h => ?_⟩, fun _ => ⟨_, _, hd, rfl, rfl, rfl⟩⟩
      · rw [hd] at hp
        exact ParseResult.noConfusion hp
      · rcases h with h | h | h
        · exact absurd (Or.inl h) hc
        · exact absurd (Or.inr (Or.inr ⟨rfl, h⟩)) hc
        · exact absurd h (by decide)

/-- C15 at a concrete input: the flags `-r` and `--json` and one path; `parseArgs` returns
with RECURSIVE and JSON set and CMODE not set. -/
theorem C15_exit_or_flags_witness :
    parseArgs cAtoi ⟨false, false, false, false, 0⟩ ["flint++", "-r", "src", "--json"] []
      = ParseResult.returned ⟨true, false, true, false, 2⟩ ["src"] ∧
    ((∃ pre, parseArgs cAtoi ⟨false, false, false, false, 0⟩
        ["flint++", "-r", "src", "--json"] [] = ParseResult.exited (pre ++ usageText)) ↔
      (readsFlag BoolVar.HELP ["flint++", "-r", "src", "--json"].tail = true ∨
        pathArgs ["flint++", "-r", "src", "--json"].tail = [] ∨
        levelWithoutValue ["flint++", "-r", "src", "--json"].tail = true)) :=
  ⟨by decide,
    (C15_exit_or_flags cAtoi ⟨false, false, false, false, 0⟩
      ["flint++", "-r", "src", "--json"] (by decide)).1⟩

/-- C15 as stated fails when a flag string is the value of a level flag: in
`flint++ -l -h x` the help flag `-h` is present and `parseArgs` returns without printing the
usage text, and in `flint++ -l -r x` the flag `-r` occurs in the argument list and
`parseArgs` returns with `Options.RECURSIVE` false. -/
theorem C15_counterexample :
    "-h" ∈ ["-l", "-h", "x"] ∧
    parseArgs cAtoi ⟨false, false, false, false, 0⟩ ["flint++", "-l", "-h", "x"] []
      = ParseResult.returned ⟨false, false, false, false, 0⟩ ["x"] ∧
    "-r" ∈ ["-l", "-r", "x"] ∧
    parseArgs cAtoi ⟨false, false, false, false, 0⟩ ["flint++", "-l", "-r", "x"] []
      = ParseResult.returned ⟨false, false, false, false, 0⟩ ["x"] := by
  refine ⟨by decide, by decide, by decide, by decide⟩

/-- C18 (violated by the code): for the argument list `flint++ ""` the empty string is not in
the map `params`, so `parseArgs` copies it into `p` and calls `p.back()` on the empty string,
with nothing before that call testing that `p` is not empty: the access is out of bounds
(undefined behaviour), whatever `atoi`, the `Options` before the call and the vector `paths`
are. -/
theorem C18_back_on_empty (atoi : String → Int) (Options : OptionsInfo)
    (paths : List String) :
    parseArgs atoi Options ["flint++", ""] paths = ParseResult.undefinedBack := by
  rfl

/-! ## Ignored regions: newlines are kept -/

theorem joinLines_splitLines (cs : List Char) : joinLines (splitLines cs) = cs := by
  induction cs with
  | nil => rfl
  | cons c cs ih =>
    have ih1 : (splitFirst cs).1 ++ ((splitFirst cs).2.map (fun x => '\n' :: x)).flatten
        = cs := ih
    by_cases hc : c = '\n'
    · have e : splitFirst (c :: cs) = ([], (splitFirst cs).1 :: (splitFirst cs).2) := by
        rw [splitFirst, if_pos hc]
      rw [splitLines, e, joinLines, List.map_cons, List.flatten_cons, List.nil_append,
        List.cons_append, ih1, hc]
    · have e : splitFirst (c :: cs) = (c :: (splitFirst cs).1, (splitFirst cs).2) := by
        rw [splitFirst, if_neg hc]
      rw [splitLines, e, joinLines, List.cons_append, ih1]

theorem splitFirst_no_newline (cs : List Char) :
    '\n' ∉ (splitFirst cs).1 ∧ ∀ l ∈ (splitFirst cs).2, '\n' ∉ l := by
  induction cs with
  | nil => simp [splitFirst]
  | cons c cs ih =>
    by_cases hc : c = '\n'
    · simp only [splitFirst, if_pos hc]
      refine ⟨by simp, ?_⟩
      intro l hl
      rcases List.mem_cons.mp hl with rfl | hl
      · exact ih.1
      · exact ih.2 l hl
    · simp only [splitFirst, if_neg hc]
      refine ⟨?_, ih.2⟩
      intro hm
      rcases List.mem_cons.mp hm with h | h
      · exact hc h.symm
      · exact ih.1 h

theorem splitLines_no_newline (cs : List Char) : ∀ l ∈ splitLines cs, '\n' ∉ l := by
  intro l hl
  rcases List.mem_cons.mp hl with rfl | hl
  · exact (splitFirst_no_newline cs).1
  · exact (splitFirst_no_newline cs).2 l hl

theorem blankLine_newlines (l : List Char) (h : '\n' ∉ l) :
    (blankLine l).map (fun c => decide (c = '\n')) = l.map (fun c => decide (c = '\n')) := by
  rw [blankLine, List.map_map]
  apply List.map_congr_left
  intro c hc
  have : c ≠ '\n' := fun e => h (e ▸ hc)
  simp [this]

theorem suppressLines_newlines (b : Bool) (ls : List (List Char))
    (h : ∀ l ∈ ls, '\n' ∉ l) :
    (suppressLines b ls).map (fun l => l.map (fun c => decide (c = '\n')))
      = ls.map (fun l => l.map (fun c => decide (c = '\n'))) := by
  induction ls generalizing b with
  | nil => rfl
  | cons l ls ih =>
    have hl := blankLine_newlines l (h l (List.mem_cons_self _ _))
    have ih1 := fun b => ih b (fun x hx => h x (List.mem_cons_of_mem _ hx))
    rw [suppressLines]
    split_ifs <;> simp only [List.map_cons, ih1, hl]

theorem joinLines_newlines (ls : List (List Char)) :
    (joinLines ls).map (fun c => decide (c = '\n'))
      = match ls.map (fun l => l.map (fun c => decide (c = '\n'))) with
        | [] => []
        | b :: bs => b ++ (bs.map (fun x => true :: x)).flatten := by
  cases ls with
  | nil => rfl
  | cons l ls =>
    simp only [joinLines, List.map_append, List.map_flatten, List.map_map, List.map_cons]
    congr 2

/-- The newlines of the output of `removeIgnoredCode` stand where the newlines of the input
stand. -/
theorem removeIgnoredCode_newlines (file path : String) :
    (removeIgnoredCode file path).data.map (fun c => decide (c = '\n'))
      = file.data.map (fun c => decide (c = '\n')) := by
  have h1 := joinLines_newlines (suppressLines false (splitLines file.data))
  have h2 := joinLines_newlines (splitLines file.data)
  rw [suppressLines_newlines false _ (splitLines_no_newline file.data)] at h1
  rw [joinLines_splitLines] at h2
  rw [removeIgnoredCode]
  exact h1.trans h2.symm

/-- The scenario of the spec: the pause line, the line between the markers and the resume
line are blanked, the lines around them are kept. -/
theorem removeIgnoredCode_scenario :
    removeIgnoredCode
        "line1\n// %flint: pause\nbad_code();\n// %flint: resume\nline5\n" "path"
      = "line1\n                \n           \n                 \nline5\n" := by
  decide

theorem newline_at_iff_of_map_eq (xs ys : List Char)
    (h : xs.map (fun c => decide (c = '\n')) = ys.map (fun c => decide (c = '\n')))
    (i : Nat) : xs[i]? = some '\n' ↔ ys[i]? = some '\n' := by
  have hi : (xs.map (fun c => decide (c = '\n')))[i]?
      = (ys.map (fun c => decide (c = '\n')))[i]? := by rw [h]
  rw [List.getElem?_map, List.getElem?_map] at hi
  cases hx : xs[i]? with
  | none =>
    cases hy : ys[i]? with
    | none => simp
    | some y => rw [hx, hy] at hi; simp at hi
  | some x =>
    cases hy : ys[i]? with
    | none => rw [hx, hy] at hi; simp at hi
    | some y =>
      rw [hx, hy] at hi
      simp only [Option.map_some', Option.some.injEq, decide_eq_decide] at hi
      simp only [Option.some.injEq]
      exact hi

theorem count_newline_of_map_eq (xs ys : List Char)
    (h : xs.map (fun c => decide (c = '\n')) = ys.map (fun c => decide (c = '\n'))) :
    xs.count '\n' = ys.count '\n' := by
  have e : ∀ l : List Char,
      l.count '\n' = (l.map (fun c => decide (c = '\n'))).count true := by
    intro l
    induction l with
    | nil => rfl
    | cons c l ih =>
      by_cases hc : c = '\n'
      · simp [hc, ih]
      · have hc2 : ¬ ('\n' = c) := fun e => hc e.symm
        simp [List.count_cons, hc, hc2, ih]
  rw [e xs, e ys, h]

/-- C13: for every input text, the output of `removeIgnoredCode` (the RegionSuppressor as
the spec describes it) has as many characters as the input and has a newline exactly at the
offsets where the input has one; so it has the same number of newlines, each at the same
offset as in the input. -/
theorem C13_newlines_kept (file path : String) :
    (removeIgnoredCode file path).data.length = file.data.length ∧
    (∀ i : Nat,
      (removeIgnoredCode file path).data[i]? = some '\n' ↔ file.data[i]? = some '\n') ∧
    (removeIgnoredCode file path).data.count '\n' = file.data.count '\n' := by
  have h := removeIgnoredCode_newlines file path
  refine ⟨?_, newline_at_iff_of_map_eq _ _ h, count_newline_of_map_eq _ _ h⟩
  have hl := congrArg List.length h
  rw [List.length_map, List.length_map] at hl
  exact hl

end flint
